import Mathlib

/-!
# ZenRows scraper API client: request parameters

A shallow embedding of `service/api/params.go` (the parameter model, `Validate`,
`ToURLValues`, `ParseQueryRequestParameters`) and of the error values of
`service/api/errors.go`, followed by the properties proved about them.

Conventions of the embedding:

* a Go `int` is an `Int`; the code only compares these values and prints them;
* a Go `string` is a `String`;
* a Go slice is a `GoSlice`: `none` is the nil slice, `some xs` a non-nil slice
  with elements `xs` (the distinction is observable through the struct-to-map
  library used by `ToURLValues`);
* a Go `error` result is an `Except`: `.ok ()` is the nil error.
-/

namespace ScraperAPI

/-! ## Parameter model -/

/-- A Go slice: `none` is the nil slice, `some xs` a non-nil slice holding `xs`. -/
abbrev GoSlice (α : Type) := Option (List α)

/-- The elements of a slice, as visited by `range`; a nil slice has none. -/
def GoSlice.elems {α : Type} (s : GoSlice α) : List α := s.getD []

/-- Go `len` on a slice. -/
def GoSlice.len {α : Type} (s : GoSlice α) : Nat := s.elems.length

/-- The type `ResponseType` is a named string type. -/
abbrev ResponseType := String
/-- The type `OutputType` is a named string type. -/
abbrev OutputType := String
/-- The type `ScreenshotFormat` is a named string type. -/
abbrev ScreenshotFormat := String
/-- The type `ResourceType` is a named string type. -/
abbrev ResourceType := String

def ResponseTypeMarkdown : ResponseType := "markdown"
def ResponseTypePlainText : ResponseType := "plaintext"
def ResponseTypePDF : ResponseType := "pdf"

/-- The key set of the Go map `AllResponseTypes`. -/
def AllResponseTypes : List ResponseType :=
  [ResponseTypeMarkdown, ResponseTypePlainText, ResponseTypePDF]

def OutputTypeEmails : OutputType := "emails"
def OutputTypePhoneNumbers : OutputType := "phone_numbers"
def OutputTypeHeadings : OutputType := "headings"
def OutputTypeImages : OutputType := "images"
def OutputTypeAudios : OutputType := "audios"
def OutputTypeVideos : OutputType := "videos"
def OutputTypeLinks : OutputType := "links"
def OutputTypeTables : OutputType := "tables"
def OutputTypeMenus : OutputType := "menus"
def OutputTypeHashtags : OutputType := "hashtags"
def OutputTypeMetadata : OutputType := "metadata"
def OutputTypeFavicon : OutputType := "favicon"
def OutputTypeAll : OutputType := "*"

/-- The key set of the Go map `AllOutputTypes`. -/
def AllOutputTypes : List OutputType :=
  [OutputTypeEmails, OutputTypePhoneNumbers, OutputTypeHeadings, OutputTypeImages,
   OutputTypeAudios, OutputTypeVideos, OutputTypeLinks, OutputTypeTables, OutputTypeMenus,
   OutputTypeHashtags, OutputTypeMetadata, OutputTypeFavicon, OutputTypeAll]

def ScreenshotFormatPNG : ScreenshotFormat := "png"
def ScreenshotFormatJPEG : ScreenshotFormat := "jpeg"

/-- The key set of the Go map `AllScreenshotFormats`. -/
def AllScreenshotFormats : List ScreenshotFormat :=
  [ScreenshotFormatPNG, ScreenshotFormatJPEG]

def ResourceTypeEventSource : ResourceType := "eventsource"
def ResourceTypeFetch : ResourceType := "fetch"
def ResourceTypeFont : ResourceType := "font"
def ResourceTypeImage : ResourceType := "image"
def ResourceTypeManifest : ResourceType := "manifest"
def ResourceTypeMedia : ResourceType := "media"
def ResourceTypeOther : ResourceType := "other"
def ResourceTypeScript : ResourceType := "script"
def ResourceTypeStylesheet : ResourceType := "stylesheet"
def ResourceTypeTextTrack : ResourceType := "texttrack"
def ResourceTypeWebSocket : ResourceType := "websocket"
def ResourceTypeXHR : ResourceType := "xhr"

/-- The key set of the Go map `AllResourceTypes`. -/
def AllResourceTypes : List ResourceType :=
  [ResourceTypeEventSource, ResourceTypeFetch, ResourceTypeFont, ResourceTypeImage,
   ResourceTypeManifest, ResourceTypeMedia, ResourceTypeOther, ResourceTypeScript,
   ResourceTypeStylesheet, ResourceTypeTextTrack, ResourceTypeWebSocket, ResourceTypeXHR]

/-- The Go type `http.Header`, a map from header name to the values of that header,
given by its entries. The code only takes its length. -/
abbrev Header := List (String × List String)

/-- The struct `RequestParameters`, fields in declaration order. -/
structure RequestParameters where
  UsePremiumProxies : Bool := false
  ProxyCountry : String := ""
  AutoParse : Bool := false
  CSSExtractor : String := ""
  JSONResponse : Bool := false
  ResponseType : ResponseType := ""
  Outputs : GoSlice OutputType := none
  JSRender : Bool := false
  JSInstructions : String := ""
  WaitMilliseconds : Int := 0
  WaitForSelector : String := ""
  Screenshot : Bool := false
  ScreenshotFullPage : Bool := false
  ScreenshotSelector : String := ""
  ScreenshotFormat : ScreenshotFormat := ""
  ScreenshotQuality : Int := 0
  ReturnOriginalStatus : Bool := false
  SessionID : Int := 0
  AllowedStatusCodes : GoSlice Int := none
  BlockResources : GoSlice ResourceType := none
  CustomHeaders : Header := []
  deriving DecidableEq, Repr

/-- The error type `InvalidParameterError`. -/
structure InvalidParameterError where
  Msg : String
  deriving DecidableEq, Repr

/-- The method `InvalidParameterError.Error`. -/
def InvalidParameterError.Error (e : InvalidParameterError) : String :=
  if e.Msg = "" then "invalid parameter" else e.Msg

deriving instance DecidableEq for Except

/-! ## Validate -/

/-- The method `RequestParameters.Validate`: the checks of the source in their order, each
`return InvalidParameterError{...}` a `throw`, the final `return nil` the value `.ok ()`. -/
def Validate (p : RequestParameters) : Except InvalidParameterError Unit := do
  if p.ScreenshotQuality < 0 ∨ p.ScreenshotQuality > 100 then
    throw ⟨"screenshot quality must be between 1 and 100"⟩
  if p.SessionID < 0 ∨ p.SessionID > 99999 then
    throw ⟨"session id must be between 0 and 99999"⟩
  if p.WaitMilliseconds < 0 ∨ p.WaitMilliseconds > 30000 then
    throw ⟨"wait must be between 0 and 30000 (ms)"⟩
  if p.ResponseType ≠ "" then
    if p.ResponseType ∉ AllResponseTypes then
      throw ⟨"invalid response type"⟩
  if p.ScreenshotFormat ≠ "" then
    if p.ScreenshotFormat ∉ AllScreenshotFormats then
      throw ⟨"invalid screenshot format"⟩
  for output in p.Outputs.elems do
    if output ∉ AllOutputTypes then
      throw ⟨"invalid output type"⟩
  for resource in p.BlockResources.elems do
    if resource ∉ AllResourceTypes then
      throw ⟨"invalid resource type"⟩
  if ¬ p.JSRender then
    if p.Screenshot then
      throw ⟨"screenshot is only available when using javascript rendering"⟩
    if p.JSInstructions ≠ "" then
      throw ⟨"js_instructions is only available when using javascript rendering"⟩
    if p.WaitMilliseconds > 0 then
      throw ⟨"wait is only available when using javascript rendering"⟩
    if p.WaitForSelector ≠ "" then
      throw ⟨"wait_for is only available when using javascript rendering"⟩
    if p.BlockResources.len > 0 then
      throw ⟨"block_resources is only available when using javascript rendering"⟩
  if ¬ p.Screenshot then
    if p.ScreenshotFullPage then
      throw ⟨"screenshot_fullpage is only available when screenshot parameter is set to true"⟩
    if p.ScreenshotSelector ≠ "" then
      throw ⟨"screenshot_selector is only available when screenshot parameter is set to true"⟩
    if p.ScreenshotFormat ≠ "" then
      throw ⟨"screenshot_format is only available when screenshot parameter is set to true"⟩
    if p.ScreenshotQuality > 0 then
      throw ⟨"screenshot_quality is only available when screenshot parameter is set to true"⟩
  if p.ScreenshotQuality > 0 ∧ p.ScreenshotFormat ≠ ScreenshotFormatJPEG then
    throw ⟨"screenshot_quality is only available when screenshot_format is set to jpeg"⟩
  if p.ProxyCountry ≠ "" ∧ ¬ p.UsePremiumProxies then
    throw ⟨"proxy country is only available when using premium proxies"⟩
  return ()


/-- One check of the validator as the specification lists it: the number of the rule it
belongs to, the condition under which it is violated, and the message reported. -/
structure Check where
  rule : Nat
  violated : RequestParameters → Bool
  msg : String

/-- The eleven rules of the specification in their order, the sub-checks of rules 8 and 9
in the order the specification names the fields. -/
def specChecks : List Check :=
  [ ⟨1, fun p => decide (¬ (0 ≤ p.ScreenshotQuality ∧ p.ScreenshotQuality ≤ 100)),
      "screenshot quality must be between 1 and 100"⟩,
    ⟨2, fun p => decide (¬ (0 ≤ p.SessionID ∧ p.SessionID ≤ 99999)),
      "session id must be between 0 and 99999"⟩,
    ⟨3, fun p => decide (¬ (0 ≤ p.WaitMilliseconds ∧ p.WaitMilliseconds ≤ 30000)),
      "wait must be between 0 and 30000 (ms)"⟩,
    ⟨4, fun p => decide (p.ResponseType ≠ "" ∧ p.ResponseType ∉ AllResponseTypes),
      "invalid response type"⟩,
    ⟨5, fun p => decide (p.ScreenshotFormat ≠ "" ∧ p.ScreenshotFormat ∉ AllScreenshotFormats),
      "invalid screenshot format"⟩,
    ⟨6, fun p => decide (¬ ∀ o ∈ p.Outputs.elems, o ∈ AllOutputTypes),
      "invalid output type"⟩,
    ⟨7, fun p => decide (¬ ∀ r ∈ p.BlockResources.elems, r ∈ AllResourceTypes),
      "invalid resource type"⟩,
    ⟨8, fun p => !p.JSRender && p.Screenshot,
      "screenshot is only available when using javascript rendering"⟩,
    ⟨8, fun p => !p.JSRender && decide (p.JSInstructions ≠ ""),
      "js_instructions is only available when using javascript rendering"⟩,
    ⟨8, fun p => !p.JSRender && decide (p.WaitMilliseconds > 0),
      "wait is only available when using javascript rendering"⟩,
    ⟨8, fun p => !p.JSRender && decide (p.WaitForSelector ≠ ""),
      "wait_for is only available when using javascript rendering"⟩,
    ⟨8, fun p => !p.JSRender && decide (p.BlockResources.elems ≠ []),
      "block_resources is only available when using javascript rendering"⟩,
    ⟨9, fun p => !p.Screenshot && p.ScreenshotFullPage,
      "screenshot_fullpage is only available when screenshot parameter is set to true"⟩,
    ⟨9, fun p => !p.Screenshot && decide (p.ScreenshotSelector ≠ ""),
      "screenshot_selector is only available when screenshot parameter is set to true"⟩,
    ⟨9, fun p => !p.Screenshot && decide (p.ScreenshotFormat ≠ ""),
      "screenshot_format is only available when screenshot parameter is set to true"⟩,
    ⟨9, fun p => !p.Screenshot && decide (p.ScreenshotQuality > 0),
      "screenshot_quality is only available when screenshot parameter is set to true"⟩,
    ⟨10, fun p => decide (p.ScreenshotQuality > 0 ∧ p.ScreenshotFormat ≠ "jpeg"),
      "screenshot_quality is only available when screenshot_format is set to jpeg"⟩,
    ⟨11, fun p => decide (p.ProxyCountry ≠ "" ∧ p.UsePremiumProxies = false),
      "proxy country is only available when using premium proxies"⟩ ]

/-- The message of the first check of `cs` that `p` violates, and no error when `p` violates
none of them. -/
def report (p : RequestParameters) (cs : List Check) : Except InvalidParameterError Unit :=
  match cs.find? (fun c => c.violated p) with
  | some c => .error ⟨c.msg⟩
  | none => .ok ()

/-- The result the specification prescribes: the message of the first violated check in the
order of `specChecks`. -/
def firstViolation (p : RequestParameters) : Except InvalidParameterError Unit :=
  report p specChecks


/-! ## Text of scalar values

`ToURLValues` prints every value with `fmt.Sprintf("%v", _)`; the decoder reads booleans and
integers back with `strconv.ParseBool` and `strconv.ParseInt(_, 10, 0)`. -/

/-- The decimal digit character of `d`, for `d < 10`. -/
def digitChar (d : Nat) : Char :=
  match d with
  | 0 => '0' | 1 => '1' | 2 => '2' | 3 => '3' | 4 => '4'
  | 5 => '5' | 6 => '6' | 7 => '7' | 8 => '8' | _ => '9'

/-- The value of a decimal digit character. -/
def digitVal (c : Char) : Option Nat :=
  if c = '0' then some 0 else if c = '1' then some 1 else if c = '2' then some 2
  else if c = '3' then some 3 else if c = '4' then some 4 else if c = '5' then some 5
  else if c = '6' then some 6 else if c = '7' then some 7 else if c = '8' then some 8
  else if c = '9' then some 9 else none

/-- The decimal digits of `n` put in front of `acc`, most significant first; `fuel` bounds the
number of digits produced. -/
def formatNatAux : Nat → Nat → List Char → List Char
  | 0, _, acc => acc
  | fuel + 1, n, acc =>
    if n < 10 then digitChar n :: acc
    else formatNatAux fuel (n / 10) (digitChar (n % 10) :: acc)

/-- The decimal digits of a natural number. -/
def formatNat (n : Nat) : List Char := formatNatAux (n + 1) n []

/-- The text `fmt.Sprintf("%v", n)` of a Go `int`: decimal, with a leading `-` when negative. -/
def formatInt (n : Int) : String :=
  match n with
  | Int.ofNat m => ⟨formatNat m⟩
  | Int.negSucc m => ⟨'-' :: formatNat (m + 1)⟩

/-- The text `fmt.Sprintf("%v", b)` of a Go `bool`. -/
def formatBool (b : Bool) : String := if b then "true" else "false"

/-- Reads the digits `cs` onto the value `acc` read so far; fails on a character that is not
a decimal digit. -/
def parseDigits : List Char → Nat → Option Nat
  | [], acc => some acc
  | c :: cs, acc =>
    match digitVal c with
    | some d => parseDigits cs (acc * 10 + d)
    | none => none

/-- An unsigned decimal number: at least one digit and nothing but digits. -/
def parseUint (cs : List Char) : Option Nat :=
  if cs = [] then none else parseDigits cs 0

/-- The Go call `strconv.ParseInt(s, 10, 0)` on a 64-bit platform: an optional sign, then an
unsigned decimal number, and a range error outside `[-2^63, 2^63 - 1]`. -/
def parseInt (s : String) : Option Int :=
  match s.data with
  | [] => none
  | c :: cs =>
    if c = '-' then
      (parseUint cs).bind fun n => if n ≤ 2 ^ 63 then some (-(n : Int)) else none
    else if c = '+' then
      (parseUint cs).bind fun n => if n < 2 ^ 63 then some (n : Int) else none
    else
      (parseUint (c :: cs)).bind fun n => if n < 2 ^ 63 then some (n : Int) else none

/-- The Go call `strconv.ParseBool`. -/
def parseBool (s : String) : Option Bool :=
  if s ∈ ["1", "t", "T", "TRUE", "true", "True"] then some true
  else if s ∈ ["0", "f", "F", "FALSE", "false", "False"] then some false
  else none

/-- The Go call `strings.Join(elems, sep)`. -/
def stringsJoin (elems : List String) (sep : String) : String :=
  ⟨List.intercalate sep.data (elems.map String.data)⟩

/-- Splits `cs` at every `sep`; `cur` holds, reversed, the piece being read. -/
def splitAux (sep : Char) : List Char → List Char → List (List Char)
  | [], cur => [cur.reverse]
  | c :: cs, cur =>
    if c = sep then cur.reverse :: splitAux sep cs [] else splitAux sep cs (c :: cur)

/-- The Go call `strings.Split(s, ",")`: the pieces of `s` between commas, in order; a text
without a comma (the empty text included) gives the one piece `s`. -/
def stringsSplitComma (s : String) : List String :=
  (splitAux ',' s.data []).map String.mk

/-! ## ToURLValues -/

/-- The Go type `url.Values`, a map from key to a list of values, given by its entries. -/
abbrev Values := List (String × List String)

/-- The map access `values[key]` with its presence flag. -/
def Values.lookup (values : Values) (key : String) : Option (List String) :=
  match values with
  | [] => none
  | (k, vs) :: rest => if k = key then some vs else Values.lookup rest key

/-- The method `url.Values.Set`: the key is bound to the single value, whatever it was bound
to before. -/
def Values.Set (values : Values) (key value : String) : Values :=
  match values with
  | [] => [(key, [value])]
  | (k, vs) :: rest =>
    if k = key then (key, [value]) :: rest else (k, vs) :: Values.Set rest key value

/-- The keys of the map. -/
def Values.keys (values : Values) : List String := values.map Prod.fst

/-- A field value as `structs.Map` hands it over (a Go `interface{}`), by its kind. -/
inductive FieldValue where
  | bool (b : Bool)
  | int (n : Int)
  | string (s : String)
  | stringSlice (xs : GoSlice String)
  | intSlice (xs : GoSlice Int)
  deriving DecidableEq, Repr

/-- Whether the value is the zero value of its type: `false`, `0`, `""`, the nil slice. A
non-nil slice without elements is not the zero value. -/
def FieldValue.isZero : FieldValue → Bool
  | .bool b => !b
  | .int n => decide (n = 0)
  | .string s => decide (s = "")
  | .stringSlice xs => xs.isNone
  | .intSlice xs => xs.isNone

/-- The fields of `RequestParameters` under the name of their `structs` tag, in declaration
order. Every tag carries `omitempty`; `CustomHeaders` is tagged `structs:"-"` and is not a
field of the map. -/
def structFields (p : RequestParameters) : List (String × FieldValue) :=
  [ ("premium_proxy", .bool p.UsePremiumProxies),
    ("proxy_country", .string p.ProxyCountry),
    ("autoparse", .bool p.AutoParse),
    ("css_extractor", .string p.CSSExtractor),
    ("json_response", .bool p.JSONResponse),
    ("response_type", .string p.ResponseType),
    ("outputs", .stringSlice p.Outputs),
    ("js_render", .bool p.JSRender),
    ("js_instructions", .string p.JSInstructions),
    ("wait", .int p.WaitMilliseconds),
    ("wait_for", .string p.WaitForSelector),
    ("screenshot", .bool p.Screenshot),
    ("screenshot_fullpage", .bool p.ScreenshotFullPage),
    ("screenshot_selector", .string p.ScreenshotSelector),
    ("screenshot_format", .string p.ScreenshotFormat),
    ("screenshot_quality", .int p.ScreenshotQuality),
    ("original_status", .bool p.ReturnOriginalStatus),
    ("session_id", .int p.SessionID),
    ("allowed_status_codes", .intSlice p.AllowedStatusCodes),
    ("block_resources", .stringSlice p.BlockResources) ]

/-- Modelled from the spec: `structs.Map` of the library `github.com/fatih/structs`, which is
not part of the source tree. Every field with a non-default value is projected into one
entry under its tag name; a field tagged `omitempty` that holds the zero value of its type is
left out. The result is a Go map; its entries are listed in field order. -/
def structsMap (p : RequestParameters) : List (String × FieldValue) :=
  (structFields p).filter fun kv => !kv.2.isZero

/-- The text stored by `ToURLValues` for one value of the map: for a slice, the elements
printed with `%v` and joined by `,`; for any other value, the value printed with `%v`. -/
def renderValue : FieldValue → String
  | .bool b => formatBool b
  | .int n => formatInt n
  | .string s => s
  | .stringSlice xs => stringsJoin xs.elems ","
  | .intSlice xs => stringsJoin (xs.elems.map formatInt) ","

/-- The method `RequestParameters.ToURLValues`. The source ranges over a Go map, whose
order is not fixed; every key is set once, so the resulting map does not depend on the order.
Here the entries come in field order, the `custom_headers` marker last. -/
def ToURLValues (p : RequestParameters) : Values :=
  let values : Values :=
    (structsMap p).foldl (fun values kv => values.Set kv.1 (renderValue kv.2)) []
  if p.CustomHeaders.length > 0 then values.Set "custom_headers" "true" else values

/-! ## ParseQueryRequestParameters -/

/-- The errors of the decoder: a key that names no field, and a value that cannot be
converted to the type of its field. -/
inductive DecodeError where
  | UnknownKeyError (key : String)
  | ConversionError (key : String)
  deriving DecidableEq, Repr

/-- The converter the decoder applies to a boolean field: `on`, or what `strconv.ParseBool`
accepts. -/
def convertBool (value : String) : Option Bool :=
  if value = "on" then some true else parseBool value

/-- The converter registered in `init` for `[]ResourceType`. -/
def convertResourceTypes (input : String) : GoSlice ResourceType :=
  some (stringsSplitComma input)

/-- The converter registered in `init` for `[]OutputType`. -/
def convertOutputTypes (input : String) : GoSlice OutputType :=
  some (stringsSplitComma input)

/-- The value the decoder reads for a field that is not a slice, or that has a registered
converter: the last of the values given for the key, the empty text when there is none. -/
def lastValue (values : List String) : String := values.getLast?.getD ""

/-- The items of an integer slice read from one value: nothing for the empty text, the
number when the value is one, and otherwise the numbers between its commas (empty pieces
skipped); `none` when a piece is not a number. -/
def convertIntItems (value : String) : Option (List Int) :=
  if value = "" then some []
  else match parseInt value with
    | some n => some [n]
    | none =>
      if ',' ∈ value.data then
        (stringsSplitComma value).foldl
          (fun acc piece => acc.bind fun items =>
            if piece = "" then some items
            else (parseInt piece).map fun n => items ++ [n])
          (some [])
      else none

/-- The items of an integer slice read from all the values given for its key. -/
def convertIntSlice (values : List String) : Option (List Int) :=
  values.foldl
    (fun acc value => acc.bind fun items => (convertIntItems value).map fun more => items ++ more)
    (some [])

/-- Decoding of a boolean field into `dst` through `set`: an empty text leaves the field as
it is. -/
def decodeBool (path : String) (values : List String) (dst : RequestParameters)
    (set : RequestParameters → Bool → RequestParameters) :
    Except DecodeError RequestParameters :=
  if lastValue values = "" then .ok dst
  else match convertBool (lastValue values) with
    | some b => .ok (set dst b)
    | none => .error (.ConversionError path)

/-- Decoding of an integer field into `dst` through `set`. -/
def decodeInt (path : String) (values : List String) (dst : RequestParameters)
    (set : RequestParameters → Int → RequestParameters) :
    Except DecodeError RequestParameters :=
  if lastValue values = "" then .ok dst
  else match parseInt (lastValue values) with
    | some n => .ok (set dst n)
    | none => .error (.ConversionError path)

/-- Decoding of a text field into `dst` through `set`. -/
def decodeString (values : List String) (dst : RequestParameters)
    (set : RequestParameters → String → RequestParameters) :
    Except DecodeError RequestParameters :=
  if lastValue values = "" then .ok dst else .ok (set dst (lastValue values))

/-- The lower-case ASCII letter that a character equals under simple Unicode case folding:
the upper-case ASCII letters, the Kelvin sign (for `k`) and the long s (for `s`) are mapped
to their lower-case ASCII letter; every other character is kept. -/
def foldRune (c : Char) : Char :=
  if 'A' ≤ c ∧ c ≤ 'Z' then Char.ofNat (c.toNat + 32)
  else if c = Char.ofNat 8490 then 'k'
  else if c = Char.ofNat 383 then 's'
  else c

/-- The key with every character folded. The schema tags are made of lower-case ASCII
letters and underscores, so the Go call `strings.EqualFold(tag, key)`, by which the decoder
looks a field up, holds exactly when the folded key is the tag. -/
def foldKey (key : String) : String := ⟨key.data.map foldRune⟩

/-- The decoding of the values of one entry into the field whose `schema` tag is `tag`;
`path` is the key as it is written in the map, which the errors name. The value is converted
to the type of the field, the two enumeration slices by the converters registered in `init`;
a value that cannot be converted is a conversion error, and a tag of no field an unknown
key (`CustomHeaders` is tagged `schema:"-"` and has none). -/
def decodeTagged (dst : RequestParameters) (tag path : String) (values : List String) :
    Except DecodeError RequestParameters :=
  if tag = "premium_proxy" then
    decodeBool path values dst fun d b => { d with UsePremiumProxies := b }
  else if tag = "proxy_country" then
    decodeString values dst fun d s => { d with ProxyCountry := s }
  else if tag = "autoparse" then
    decodeBool path values dst fun d b => { d with AutoParse := b }
  else if tag = "css_extractor" then
    decodeString values dst fun d s => { d with CSSExtractor := s }
  else if tag = "json_response" then
    decodeBool path values dst fun d b => { d with JSONResponse := b }
  else if tag = "response_type" then
    decodeString values dst fun d s => { d with ResponseType := s }
  else if tag = "outputs" then
    .ok { dst with Outputs := convertOutputTypes (lastValue values) }
  else if tag = "js_render" then
    decodeBool path values dst fun d b => { d with JSRender := b }
  else if tag = "js_instructions" then
    decodeString values dst fun d s => { d with JSInstructions := s }
  else if tag = "wait" then
    decodeInt path values dst fun d n => { d with WaitMilliseconds := n }
  else if tag = "wait_for" then
    decodeString values dst fun d s => { d with WaitForSelector := s }
  else if tag = "screenshot" then
    decodeBool path values dst fun d b => { d with Screenshot := b }
  else if tag = "screenshot_fullpage" then
    decodeBool path values dst fun d b => { d with ScreenshotFullPage := b }
  else if tag = "screenshot_selector" then
    decodeString values dst fun d s => { d with ScreenshotSelector := s }
  else if tag = "screenshot_format" then
    decodeString values dst fun d s => { d with ScreenshotFormat := s }
  else if tag = "screenshot_quality" then
    decodeInt path values dst fun d n => { d with ScreenshotQuality := n }
  else if tag = "original_status" then
    decodeBool path values dst fun d b => { d with ReturnOriginalStatus := b }
  else if tag = "session_id" then
    decodeInt path values dst fun d n => { d with SessionID := n }
  else if tag = "allowed_status_codes" then
    match convertIntSlice values with
    | some items => .ok { dst with AllowedStatusCodes := some items }
    | none => .error (.ConversionError path)
  else if tag = "block_resources" then
    .ok { dst with BlockResources := convertResourceTypes (lastValue values) }
  else
    .error (.UnknownKeyError path)

/-- Modelled from the spec: the decoding of one entry of the flattened map by
`Decoder.Decode` of the library `github.com/gorilla/schema`, which is not part of the source
tree. The key names the field whose `schema` tag it equals ignoring case (the decoder
compares them with `strings.EqualFold`); a key that equals no tag is an unknown key. -/
def decodeField (dst : RequestParameters) (path : String) (values : List String) :
    Except DecodeError RequestParameters :=
  decodeTagged dst (foldKey path) path values

/-- Modelled from the spec: `Decoder.Decode` of `github.com/gorilla/schema`: every entry of
the map is decoded into `dst`, and the errors of the entries that fail are collected. -/
def Decode (dst : RequestParameters) (src : Values) : RequestParameters × List DecodeError :=
  src.foldl
    (fun st kv =>
      match decodeField st.1 kv.1 kv.2 with
      | .ok d => (d, st.2)
      | .error e => (st.1, st.2 ++ [e]))
    (dst, [])

/-- The function `ParseQueryRequestParameters`: the query is decoded into a zero
`RequestParameters`; any decoding error is returned, and no value with it. -/
def ParseQueryRequestParameters (query : Values) :
    Except (List DecodeError) RequestParameters :=
  match Decode {} query with
  | (requestParameters, []) => .ok requestParameters
  | (_, err :: errs) => .error (err :: errs)

/-- The identifiers that the table of section 3 of the specification gives to the fields,
in the order of the table. -/
def specTableKeys : List String :=
  ["use_premium_proxies", "proxy_country", "auto_parse", "css_extractor", "json_response",
   "response_type", "outputs", "js_render", "js_instructions", "wait_ms", "wait_for_selector",
   "screenshot", "screenshot_full_page", "screenshot_selector", "screenshot_format",
   "screenshot_quality", "return_original_status", "session_id", "allowed_status_codes",
   "block_resources"]

/-! ## Client.Scrape -/

/-- The list `validHTTPMethods`: `http.MethodGet`, `http.MethodPost`, `http.MethodPut`. -/
def validHTTPMethods : List String := ["GET", "POST", "PUT"]

/-- The error type `InvalidTargetURLError`; the wrapped error `Err` is given by its text,
`none` being the nil error. -/
structure InvalidTargetURLError where
  URL : String := ""
  Msg : String := ""
  Err : Option String := none
  deriving DecidableEq, Repr

/-- The method `InvalidTargetURLError.Error`. -/
def InvalidTargetURLError.Error (e : InvalidTargetURLError) : String :=
  let msg := if e.Msg = "" then "invalid target url" else e.Msg
  match e.Err with
  | some err => msg ++ ": " ++ err
  | none => msg

/-- The errors that `Scrape` returns: the error types of `errors.go`, and the error of the
HTTP client when the request was executed. -/
inductive ScrapeError where
  | NotConfiguredError
  | InvalidHTTPMethodError
  | InvalidTargetURLError (e : InvalidTargetURLError)
  | InvalidParameterError (e : InvalidParameterError)
  | ExecuteError (text : String)
  deriving DecidableEq, Repr

/-- The fields of the struct `options` that `Scrape` reads. -/
structure options where
  baseURL : String
  apiKey : String
  deriving DecidableEq, Repr

/-- The struct `Client`, by its configuration. -/
structure Client where
  cfg : options
  deriving DecidableEq, Repr

/-- The method `Client.isConfigured`. -/
def Client.isConfigured (c : Client) : Bool :=
  decide (c.cfg.baseURL ≠ "") && decide (c.cfg.apiKey ≠ "")

/-- The request that `Scrape` builds: the method it is executed with, the `url` query
parameter, the body, and the header lines and query parameters taken from the parameters. -/
structure Request (β : Type) where
  Method : String
  URLParam : String
  Body : β
  HeaderMultiValues : Header
  QueryParams : Values

/-- What a call of `Scrape` does: the pair it returns (`.error e` is `(nil, e)`), and the
requests it handed to the HTTP client for execution. -/
structure ScrapeOutcome (β ρ : Type) where
  result : Except ScrapeError ρ
  executed : List (Request β)

/-- The method `Client.Scrape`. The functions `urlParse` (the Go call `url.Parse` followed by
`String`) and `execute` (the call `req.Execute` of the HTTP client) stand for the two
operations outside the package. Building the request object sends nothing; the context and
the concurrency semaphore, which only delays the execution, are left out. -/
def Client.Scrape {β ρ : Type} (c : Client) (urlParse : String → Except String String)
    (execute : Request β → Except String ρ) (method targetURL : String)
    (params : Option RequestParameters) (body : β) : ScrapeOutcome β ρ :=
  if ¬ c.isConfigured then
    ⟨.error .NotConfiguredError, []⟩
  else if method ∉ validHTTPMethods then
    ⟨.error .InvalidHTTPMethodError, []⟩
  else if targetURL = "" then
    ⟨.error (.InvalidTargetURLError { Msg := "target url cannot be empty" }), []⟩
  else
    match urlParse targetURL with
    | .error parseErr =>
      ⟨.error (.InvalidTargetURLError { URL := targetURL, Err := some parseErr }), []⟩
    | .ok parsedURL =>
      let send (req : Request β) : ScrapeOutcome β ρ :=
        match execute req with
        | .error err => ⟨.error (.ExecuteError err), [req]⟩
        | .ok res => ⟨.ok res, [req]⟩
      match params with
      | some p =>
        match Validate p with
        | .error err => ⟨.error (.InvalidParameterError err), []⟩
        | .ok _ => send ⟨method, parsedURL, body, p.CustomHeaders, ToURLValues p⟩
      | none => send ⟨method, parsedURL, body, [], []⟩

/-- The names in the `schema` tags of the fields of `RequestParameters`. A key is recognised
by the decoder when, ignoring case, it is one of them. -/
def schemaKeys : List String :=
  ["premium_proxy", "proxy_country", "autoparse", "css_extractor", "json_response",
   "response_type", "outputs", "js_render", "js_instructions", "wait", "wait_for",
   "screenshot", "screenshot_fullpage", "screenshot_selector", "screenshot_format",
   "screenshot_quality", "original_status", "session_id", "allowed_status_codes",
   "block_resources"]

/-- The tags of the boolean fields. -/
def boolKeys : List String :=
  ["premium_proxy", "autoparse", "json_response", "js_render", "screenshot",
   "screenshot_fullpage", "original_status"]

/-- The tags of the integer fields. -/
def intKeys : List String := ["wait", "screenshot_quality", "session_id"]

/-- The texts that stand for a boolean. -/
def isBoolText (s : String) : Bool :=
  decide (s ∈ ["on", "1", "t", "T", "TRUE", "true", "True", "0", "f", "F", "FALSE", "false",
    "False"])

/-- The decimal digit characters. -/
def decimalDigits : List Char := ['0', '1', '2', '3', '4', '5', '6', '7', '8', '9']

/-- The texts that stand for an integer: an optional sign `+` or `-`, then one or more
decimal digits, the number written lying between `-2^63` and `2^63 - 1`. -/
def isIntText (s : String) : Bool :=
  let negative := s.data.head? == some '-'
  let digits := if negative || s.data.head? == some '+' then s.data.tail else s.data
  let magnitude : Nat := digits.foldl (fun n c => 10 * n + (c.toNat - 48)) 0
  !digits.isEmpty && digits.all (fun c => decide (c ∈ decimalDigits)) &&
    (if negative then decide (magnitude ≤ 9223372036854775808)
     else decide (magnitude ≤ 9223372036854775807))

/-- The texts that stand for a list of integers: the empty text, an integer, or integers
separated by commas, where an empty piece counts for nothing. -/
def isIntListText (s : String) : Bool :=
  decide (s = "") || isIntText s ||
    (decide (',' ∈ s.data) &&
      (stringsSplitComma s).all fun piece => decide (piece = "") || isIntText piece)

/-- Whether the values given for the field with the tag `tag` can be converted to the type of
that field. For a boolean or an integer field the last value counts, and the empty text is
read as no value; for `allowed_status_codes` every value counts; the text fields and the two
enumeration slices take any text. -/
def convertibleTag (tag : String) (values : List String) : Bool :=
  if tag ∈ boolKeys then
    decide (lastValue values = "") || isBoolText (lastValue values)
  else if tag ∈ intKeys then
    decide (lastValue values = "") || isIntText (lastValue values)
  else if tag = "allowed_status_codes" then
    values.all isIntListText
  else true

/-- Whether the values given for a key can be converted to the type of the field that the
key names ignoring case. -/
def convertible (key : String) (values : List String) : Bool :=
  convertibleTag (foldKey key) values

/-! ## Auxiliary definitions -/

/-- The 64-bit range of a Go `int`. -/
abbrev InInt64 (n : Int) : Prop := -9223372036854775808 ≤ n ∧ n ≤ 9223372036854775807

/-- The entries that `ToURLValues` stores for the fields of `p`. -/
def fieldEntries (p : RequestParameters) : Values :=
  (structsMap p).map fun kv => (kv.1, [renderValue kv.2])

/-- One step of `Decode` on an entry with the values `values` under the key `key`. -/
def decodeStep (st : RequestParameters × List DecodeError) (kv : String × List String) :
    RequestParameters × List DecodeError :=
  match decodeField st.1 kv.1 kv.2 with
  | .ok d => (d, st.2)
  | .error e => (st.1, st.2 ++ [e])

/-- One step of `Decode` on the entry of a field, when the field has one. -/
def fieldStep (st : RequestParameters × List DecodeError) (kv : String × FieldValue) :
    RequestParameters × List DecodeError :=
  if kv.2.isZero then st else decodeStep st (kv.1, [renderValue kv.2])

/-- The checks of the specification without rule 10 (quality requires jpeg) and without the
`screenshot_quality` sub-check of rule 9, in the same order. -/
def checksWithoutQualityRules : List Check :=
  specChecks.filter fun c =>
    !(c.rule == 10) &&
    !(c.msg == "screenshot_quality is only available when screenshot parameter is set to true")

/-! ## Auxiliary lemmas -/

theorem throw_bind_except {ε α β : Type} (e : ε) (k : α → Except ε β) :
    ((throw e : Except ε α) >>= k) = throw e := rfl

theorem ite_throw_bind {ε α β : Type} (c : Prop) [Decidable c] (e : ε) (a : α)
    (k : α → Except ε β) :
    ((if c then throw e else pure a : Except ε α) >>= k) = if c then throw e else k a := by
  by_cases h : c <;> simp [h, throw_bind_except]

theorem forIn_throw {ε : Type} (xs : List String) (P : String → Prop) [DecidablePred P] (e : ε) :
    (forIn xs PUnit.unit (fun o (_ : PUnit) =>
        if P o then (throw e : Except ε (ForInStep PUnit))
        else pure (ForInStep.yield PUnit.unit))) =
      if ∃ x ∈ xs, P x then throw e else pure PUnit.unit := by
  induction xs with
  | nil => simp
  | cons x xs ih =>
    simp only [List.forIn_cons]
    by_cases h : P x
    · have hex : ∃ y ∈ x :: xs, P y := ⟨x, List.mem_cons_self x xs, h⟩
      simp only [h, hex, if_true]
      rfl
    · simp [h] at ih ⊢
      exact ih

theorem ite_ite_same {α : Type} (a b : Prop) [Decidable a] [Decidable b] (x y : α) :
    (if a then (if b then x else y) else y) = if a ∧ b then x else y := by
  by_cases ha : a <;> by_cases hb : b <;> simp [ha, hb]

theorem report_cons_of_violated (p : RequestParameters) (c : Check) (cs : List Check)
    (h : c.violated p = true) : report p (c :: cs) = .error ⟨c.msg⟩ := by
  simp [report, List.find?, h]

theorem report_cons_of_not_violated (p : RequestParameters) (c : Check) (cs : List Check)
    (h : c.violated p = false) : report p (c :: cs) = report p cs := by
  simp [report, List.find?, h]

theorem report_step (p : RequestParameters) (c : Check) (cs : List Check) (cond : Prop)
    {dec : Decidable cond} (rest : Except InvalidParameterError Unit) (m : String)
    (hm : c.msg = m) (hc : cond ↔ c.violated p = true) (hrest : rest = report p cs) :
    (@ite _ cond dec (throw ⟨m⟩) rest) = report p (c :: cs) := by
  subst hm
  by_cases h : cond
  · rw [if_pos h, report_cons_of_violated p c cs (hc.mp h)]; rfl
  · have hv : c.violated p = false := by
      cases hcv : c.violated p
      · rfl
      · exact absurd (hc.mpr hcv) h
    rw [if_neg h, report_cons_of_not_violated p c cs hv, hrest]

theorem Validate_eq_firstViolation (p : RequestParameters) : Validate p = firstViolation p := by
  unfold Validate
  simp only [throw_bind_except, pure_bind, forIn_throw]
  simp only [ite_throw_bind, ite_ite_same]
  unfold firstViolation specChecks
  cases hj : p.JSRender <;> cases hs : p.Screenshot <;>
    simp only [Bool.not_true, Bool.not_false, Bool.true_and, Bool.false_and, not_true_eq_false,
      not_false_eq_true, if_true, if_false, Bool.false_eq_true]
  · iterate 7 (refine report_step p _ _ _ _ _ rfl ?hc ?_; case hc => (simp; try omega))
    rw [report_cons_of_not_violated p _ _ (by simp [hj, hs])]
    iterate 10 (refine report_step p _ _ _ _ _ rfl ?hc ?_; case hc => (simp [hj, hs, GoSlice.len, List.length_pos, ScreenshotFormatJPEG]))
    rfl
  · iterate 7 (refine report_step p _ _ _ _ _ rfl ?hc ?_; case hc => (simp; try omega))
    rw [report_cons_of_violated p _ _ (by simp [hj, hs])]
    rfl
  · iterate 7 (refine report_step p _ _ _ _ _ rfl ?hc ?_; case hc => (simp; try omega))
    iterate 5 (rw [report_cons_of_not_violated p _ _ (by simp [hj, hs])])
    iterate 6 (refine report_step p _ _ _ _ _ rfl ?hc ?_; case hc => (simp [hj, hs, GoSlice.len, List.length_pos, ScreenshotFormatJPEG]))
    rfl
  · iterate 7 (refine report_step p _ _ _ _ _ rfl ?hc ?_; case hc => (simp; try omega))
    iterate 9 (rw [report_cons_of_not_violated p _ _ (by simp [hj, hs])])
    iterate 2 (refine report_step p _ _ _ _ _ rfl ?hc ?_; case hc => (simp [hj, hs, GoSlice.len, List.length_pos, ScreenshotFormatJPEG]))
    rfl

theorem report_ok_iff (p : RequestParameters) (cs : List Check) :
    report p cs = .ok () ↔ ∀ c ∈ cs, c.violated p = false := by
  induction cs with
  | nil => simp [report]
  | cons c cs ih =>
    cases hv : c.violated p
    · rw [report_cons_of_not_violated p c cs hv, ih]
      simp [hv]
    · rw [report_cons_of_violated p c cs hv]
      simp [hv]

theorem valid_ok_or_error (p : RequestParameters) :
    Validate p = .ok () ∨ ∃ e, Validate p = .error e := by
  cases h : Validate p with
  | ok u => left; rfl
  | error e => right; exact ⟨e, rfl⟩

theorem not_and_not_iff_or (a b : Prop) : ¬(¬a ∧ ¬b) ↔ (a ∨ b) := by tauto

theorem not_and_not_iff_imp (a b : Prop) : ¬(a ∧ ¬b) ↔ (a → b) := by tauto

theorem Validate_ok_iff (p : RequestParameters) :
    Validate p = .ok () ↔
      (0 ≤ p.ScreenshotQuality ∧ p.ScreenshotQuality ≤ 100) ∧
      (0 ≤ p.SessionID ∧ p.SessionID ≤ 99999) ∧
      (0 ≤ p.WaitMilliseconds ∧ p.WaitMilliseconds ≤ 30000) ∧
      (p.ResponseType = "" ∨ p.ResponseType ∈ ["markdown", "plaintext", "pdf"]) ∧
      (p.ScreenshotFormat = "" ∨ p.ScreenshotFormat ∈ ["png", "jpeg"]) ∧
      (∀ o ∈ p.Outputs.elems, o ∈ ["emails", "phone_numbers", "headings", "images", "audios",
        "videos", "links", "tables", "menus", "hashtags", "metadata", "favicon", "*"]) ∧
      (∀ r ∈ p.BlockResources.elems, r ∈ ["eventsource", "fetch", "font", "image", "manifest",
        "media", "other", "script", "stylesheet", "texttrack", "websocket", "xhr"]) ∧
      (p.JSRender = false → p.Screenshot = false ∧ p.JSInstructions = "" ∧
        p.WaitForSelector = "" ∧ p.WaitMilliseconds = 0 ∧ p.BlockResources.elems = []) ∧
      (p.Screenshot = false → p.ScreenshotFullPage = false ∧ p.ScreenshotSelector = "" ∧
        p.ScreenshotFormat = "" ∧ p.ScreenshotQuality = 0) ∧
      (p.ScreenshotQuality > 0 → p.ScreenshotFormat = "jpeg") ∧
      (p.ProxyCountry ≠ "" → p.UsePremiumProxies = true) := by
  rw [Validate_eq_firstViolation, firstViolation, report_ok_iff]
  have hR : AllResponseTypes = ["markdown", "plaintext", "pdf"] := rfl
  have hF : AllScreenshotFormats = ["png", "jpeg"] := rfl
  have hO : AllOutputTypes = ["emails", "phone_numbers", "headings", "images", "audios",
        "videos", "links", "tables", "menus", "hashtags", "metadata", "favicon", "*"] := rfl
  have hB : AllResourceTypes = ["eventsource", "fetch", "font", "image", "manifest",
        "media", "other", "script", "stylesheet", "texttrack", "websocket", "xhr"] := rfl
  rw [← hR, ← hF, ← hO, ← hB]
  simp only [specChecks, List.forall_mem_cons, List.not_mem_nil, false_imp_iff, implies_true, and_true,
    decide_eq_false_iff_not, not_not, Bool.and_eq_false_iff, Bool.not_eq_false_eq_eq_true,
    Bool.not_eq_false, Bool.not_eq_eq_eq_not, Bool.not_true, Bool.not_false]
  constructor
  · rintro ⟨h1, h2, h3, h4, h5, h6, h7, a1, a2, a3, a4, a5, b1, b2, b3, b4, c, d⟩
    refine ⟨h1, h2, h3, (not_and_not_iff_or _ _).mp h4, (not_and_not_iff_or _ _).mp h5, h6, h7,
      ?_, ?_, (not_and_not_iff_imp _ _).mp c, ?_⟩
    · intro hj
      simp only [hj, Bool.false_eq_true, false_or] at a1 a2 a3 a4 a5
      exact ⟨a1, a2, a4, by omega, a5⟩
    · intro hs
      simp only [hs, Bool.false_eq_true, false_or] at b1 b2 b3 b4
      exact ⟨b1, b2, b3, by omega⟩
    · intro hc
      cases hu : p.UsePremiumProxies
      · exact absurd ⟨hc, hu⟩ d
      · rfl
  · rintro ⟨h1, h2, h3, h4, h5, h6, h7, a, b, c, d⟩
    refine ⟨h1, h2, h3, (not_and_not_iff_or _ _).mpr h4, (not_and_not_iff_or _ _).mpr h5, h6, h7,
      ?_, ?_, ?_, ?_, ?_, ?_, ?_, ?_, ?_, (not_and_not_iff_imp _ _).mpr c, ?_⟩
    · cases hj : p.JSRender
      · exact Or.inr (a hj).1
      · exact Or.inl rfl
    · cases hj : p.JSRender
      · exact Or.inr (a hj).2.1
      · exact Or.inl rfl
    · cases hj : p.JSRender
      · exact Or.inr (by have := (a hj).2.2.2.1; omega)
      · exact Or.inl rfl
    · cases hj : p.JSRender
      · exact Or.inr (a hj).2.2.1
      · exact Or.inl rfl
    · cases hj : p.JSRender
      · exact Or.inr (a hj).2.2.2.2
      · exact Or.inl rfl
    · cases hs : p.Screenshot
      · exact Or.inr (b hs).1
      · exact Or.inl rfl
    · cases hs : p.Screenshot
      · exact Or.inr (b hs).2.1
      · exact Or.inl rfl
    · cases hs : p.Screenshot
      · exact Or.inr (b hs).2.2.1
      · exact Or.inl rfl
    · cases hs : p.Screenshot
      · exact Or.inr (by have := (b hs).2.2.2; omega)
      · exact Or.inl rfl
    · rintro ⟨hc, hu⟩
      rw [d hc] at hu
      exact Bool.noConfusion hu

theorem report_first (p : RequestParameters) (cs : List Check)
    (h : ∃ c ∈ cs, c.violated p = true) :
    ∃ pre c post, cs = pre ++ c :: post ∧ c.violated p = true ∧
      (∀ d ∈ pre, d.violated p = false) ∧ report p cs = .error ⟨c.msg⟩ := by
  induction cs with
  | nil =>
    obtain ⟨c, hc, -⟩ := h
    exact absurd hc (List.not_mem_nil c)
  | cons c cs ih =>
    cases hv : c.violated p
    · have h2 : ∃ d ∈ cs, d.violated p = true := by
        obtain ⟨d, hd, hdv⟩ := h
        rcases List.mem_cons.mp hd with rfl | hd
        · rw [hv] at hdv; exact Bool.noConfusion hdv
        · exact ⟨d, hd, hdv⟩
      obtain ⟨pre, d, post, hsplit, hd, hpre, hrep⟩ := ih h2
      refine ⟨c :: pre, d, post, by rw [hsplit]; rfl, hd, ?_, ?_⟩
      · intro x hx
        rcases List.mem_cons.mp hx with rfl | hx
        · exact hv
        · exact hpre x hx
      · rw [report_cons_of_not_violated p c cs hv, hrep]
    · exact ⟨[], c, cs, rfl, hv, fun d hd => absurd hd (List.not_mem_nil d),
        report_cons_of_violated p c cs hv⟩

theorem specChecks_rules_sorted : specChecks.Pairwise (fun a b => a.rule ≤ b.rule) := by
  unfold specChecks
  decide

theorem digitVal_digitChar (d : Nat) (h : d < 10) : digitVal (digitChar d) = some d := by
  interval_cases d <;> rfl

theorem digitChar_ne_minus (d : Nat) : digitChar d ≠ '-' := by
  unfold digitChar
  split <;> decide

theorem digitChar_ne_plus (d : Nat) : digitChar d ≠ '+' := by
  unfold digitChar
  split <;> decide

theorem digitChar_ne_comma (d : Nat) : digitChar d ≠ ',' := by
  unfold digitChar
  split <;> decide

theorem digitVal_comma : digitVal ',' = none := by decide

theorem parseDigits_formatNatAux (fuel : Nat) :
    ∀ (n : Nat) (acc : List Char) (a : Nat), n < fuel → a = 0 →
      parseDigits (formatNatAux fuel n acc) a = parseDigits acc n := by
  induction fuel with
  | zero => intro n acc a h; omega
  | succ fuel ih =>
    intro n acc a h ha
    subst ha
    unfold formatNatAux
    by_cases h10 : n < 10
    · simp only [h10, if_true, parseDigits, digitVal_digitChar n h10, Nat.zero_mul, Nat.zero_add]
    · simp only [h10, if_false]
      rw [ih (n / 10) _ 0 (by omega) rfl]
      simp only [parseDigits, digitVal_digitChar (n % 10) (Nat.mod_lt n (by decide))]
      congr 1
      omega

theorem formatNatAux_head_digit (fuel : Nat) :
    ∀ (n d : Nat) (acc : List Char),
      ∃ d2 rest, formatNatAux fuel n (digitChar d :: acc) = digitChar d2 :: rest := by
  induction fuel with
  | zero => intro n d acc; exact ⟨d, acc, rfl⟩
  | succ fuel ih =>
    intro n d acc
    unfold formatNatAux
    by_cases h10 : n < 10
    · simp only [h10, if_true]; exact ⟨n, _, rfl⟩
    · simp only [h10, if_false]; exact ih _ _ _

theorem formatNat_head_digit (n : Nat) : ∃ d rest, formatNat n = digitChar d :: rest := by
  unfold formatNat formatNatAux
  by_cases h10 : n < 10
  · simp only [h10, if_true]; exact ⟨n, _, rfl⟩
  · simp only [h10, if_false]; exact formatNatAux_head_digit _ _ _ _

theorem parseUint_formatNat (n : Nat) : parseUint (formatNat n) = some n := by
  obtain ⟨d, rest, hd⟩ := formatNat_head_digit n
  unfold parseUint
  rw [if_neg (by rw [hd]; exact List.cons_ne_nil _ _)]
  unfold formatNat
  rw [parseDigits_formatNatAux (n + 1) n [] 0 (by omega) rfl]
  rfl

theorem parseInt_formatInt (n : Int) (hlo : -9223372036854775808 ≤ n)
    (hhi : n ≤ 9223372036854775807) : parseInt (formatInt n) = some n := by
  cases n with
  | ofNat m =>
    obtain ⟨d, rest, hd⟩ := formatNat_head_digit m
    have hp := parseUint_formatNat m
    simp only [formatInt, parseInt]
    rw [hd] at hp ⊢
    simp only [digitChar_ne_minus, digitChar_ne_plus, if_false, hp, Option.some_bind]
    have : m < 2 ^ 63 := by
      have := hhi
      simp only [Int.ofNat_eq_coe] at this
      omega
    rw [if_pos this]
    rfl
  | negSucc m =>
    have hp := parseUint_formatNat (m + 1)
    simp only [formatInt, parseInt, if_true, hp, Option.some_bind]
    have : m + 1 ≤ 2 ^ 63 := by
      have := hlo
      simp only [Int.negSucc_eq] at this
      omega
    simp only [this, if_true]
    rfl

theorem splitAux_append_of_not_mem (sep : Char) (w : List Char) :
    ∀ (cur rest : List Char), sep ∉ w →
      splitAux sep (w ++ rest) cur = splitAux sep rest (w.reverse ++ cur) := by
  induction w with
  | nil => intro cur rest _; rfl
  | cons c w ih =>
    intro cur rest h
    have hc : c ≠ sep := fun e => h (e ▸ List.mem_cons_self c w)
    have hw : sep ∉ w := fun e => h (List.mem_cons_of_mem c e)
    show splitAux sep (c :: (w ++ rest)) cur = _
    simp only [splitAux, hc, if_false]
    rw [ih (c :: cur) rest hw]
    simp

theorem splitAux_join (x : String) (xs : List String) :
    ∀ (cur : List Char), (∀ y ∈ x :: xs, ',' ∉ y.data) →
      splitAux ',' (List.intercalate [','] ((x :: xs).map String.data)) cur =
        (cur.reverse ++ x.data) :: xs.map String.data := by
  induction xs generalizing x with
  | nil =>
    intro cur h
    have hx : ',' ∉ x.data := h x (List.mem_cons_self x [])
    have e : List.intercalate [','] ([x].map String.data) = x.data ++ [] := by
      simp [List.intercalate]
    rw [e, splitAux_append_of_not_mem ',' x.data cur [] hx]
    simp [splitAux]
  | cons y ys ih =>
    intro cur h
    have hx : ',' ∉ x.data := h x (List.mem_cons_self x _)
    have e : List.intercalate [','] ((x :: y :: ys).map String.data) =
        x.data ++ (',' :: List.intercalate [','] ((y :: ys).map String.data)) := by
      simp [List.intercalate]
    rw [e, splitAux_append_of_not_mem ',' x.data cur _ hx]
    simp only [splitAux, if_true]
    rw [ih y [] (fun z hz => h z (List.mem_cons_of_mem x hz))]
    simp

theorem stringsSplitComma_stringsJoin (xs : List String) (hne : xs ≠ [])
    (h : ∀ y ∈ xs, ',' ∉ y.data) : stringsSplitComma (stringsJoin xs ",") = xs := by
  cases xs with
  | nil => exact absurd rfl hne
  | cons x xs =>
    unfold stringsSplitComma stringsJoin
    show List.map String.mk (splitAux ',' (List.intercalate [','] ((x :: xs).map String.data)) [])
      = x :: xs
    rw [splitAux_join x xs [] h]
    simp [Function.comp_def]

theorem formatNatAux_chars (fuel : Nat) :
    ∀ (n : Nat) (acc : List Char) (c : Char), c ∈ formatNatAux fuel n acc →
      c ∈ acc ∨ ∃ d, c = digitChar d := by
  induction fuel with
  | zero => intro n acc c h; exact Or.inl h
  | succ fuel ih =>
    intro n acc c h
    unfold formatNatAux at h
    by_cases h10 : n < 10
    · simp only [h10, if_true] at h
      rcases List.mem_cons.mp h with rfl | h
      · exact Or.inr ⟨n, rfl⟩
      · exact Or.inl h
    · simp only [h10, if_false] at h
      rcases ih _ _ c h with h | h
      · rcases List.mem_cons.mp h with rfl | h
        · exact Or.inr ⟨_, rfl⟩
        · exact Or.inl h
      · exact Or.inr h

theorem formatNat_no_comma (n : Nat) : ',' ∉ formatNat n := by
  intro h
  rcases formatNatAux_chars _ _ _ _ h with h | ⟨d, h⟩
  · exact absurd h (List.not_mem_nil _)
  · exact digitChar_ne_comma d h.symm

theorem formatInt_no_comma (n : Int) : ',' ∉ (formatInt n).data := by
  cases n with
  | ofNat m => exact formatNat_no_comma m
  | negSucc m =>
    intro h
    rcases List.mem_cons.mp h with h | h
    · exact absurd h (by decide)
    · exact formatNat_no_comma _ h

theorem formatInt_ne_empty (n : Int) : formatInt n ≠ "" := by
  cases n with
  | ofNat m =>
    obtain ⟨d, rest, hd⟩ := formatNat_head_digit m
    intro h
    have : (formatInt (Int.ofNat m)).data = [] := by rw [h]
    simp only [formatInt] at this
    rw [hd] at this
    exact List.cons_ne_nil _ _ this
  | negSucc m =>
    intro h
    have : (formatInt (Int.negSucc m)).data = [] := by rw [h]
    exact List.cons_ne_nil _ _ this

theorem parseDigits_none_of_comma (cs : List Char) :
    ∀ (a : Nat), ',' ∈ cs → parseDigits cs a = none := by
  induction cs with
  | nil => intro a h; exact absurd h (List.not_mem_nil _)
  | cons c cs ih =>
    intro a h
    unfold parseDigits
    rcases List.mem_cons.mp h with rfl | h
    · rw [digitVal_comma]
    · cases hd : digitVal c with
      | none => rfl
      | some d => exact ih _ h

theorem parseUint_none_of_comma (cs : List Char) (h : ',' ∈ cs) : parseUint cs = none := by
  unfold parseUint
  split
  · rfl
  · exact parseDigits_none_of_comma cs 0 h

theorem parseInt_none_of_comma (s : String) (h : ',' ∈ s.data) : parseInt s = none := by
  unfold parseInt
  cases hs : s.data with
  | nil => rfl
  | cons c cs =>
    rw [hs] at h
    simp only
    by_cases h1 : c = '-'
    · have hcs : ',' ∈ cs := by
        rcases List.mem_cons.mp h with e | e
        · rw [h1] at e; exact absurd e (by decide)
        · exact e
      simp only [h1, if_true, parseUint_none_of_comma cs hcs, Option.none_bind]
    · by_cases h2 : c = '+'
      · have hcs : ',' ∈ cs := by
          rcases List.mem_cons.mp h with e | e
          · rw [h2] at e; exact absurd e (by decide)
          · exact e
        subst h2
        simp only [if_true, parseUint_none_of_comma cs hcs, Option.none_bind]
        split <;> rfl
      · simp only [h1, h2, if_false, parseUint_none_of_comma (c :: cs) h, Option.none_bind]

theorem stringsJoin_nil (sep : String) : stringsJoin [] sep = "" := rfl

theorem stringsJoin_singleton (x sep : String) : stringsJoin [x] sep = x := by
  simp [stringsJoin, List.intercalate]

theorem stringsJoin_comma_mem (x y : String) (ys : List String) :
    ',' ∈ (stringsJoin (x :: y :: ys) ",").data := by
  have e : List.intercalate [','] ((x :: y :: ys).map String.data) =
      x.data ++ (',' :: List.intercalate [','] ((y :: ys).map String.data)) := by
    simp [List.intercalate]
  show ',' ∈ List.intercalate [','] ((x :: y :: ys).map String.data)
  rw [e]
  exact List.mem_append_right _ (List.mem_cons_self _ _)

theorem foldl_pieces_formatInt (ys : List Int) :
    ∀ (items : List Int), (∀ n ∈ ys, InInt64 n) →
      (ys.map formatInt).foldl
        (fun acc piece => acc.bind fun items =>
          if piece = "" then some items
          else (parseInt piece).map fun n => items ++ [n])
        (some items) = some (items ++ ys) := by
  induction ys with
  | nil => intro items _; simp
  | cons y ys ih =>
    intro items h
    have hy := h y (List.mem_cons_self y ys)
    simp only [List.map_cons, List.foldl_cons, Option.some_bind, formatInt_ne_empty, if_false,
      parseInt_formatInt y hy.1 hy.2, Option.map_some']
    rw [ih _ (fun n hn => h n (List.mem_cons_of_mem y hn))]
    simp

theorem convertIntItems_join (xs : List Int) (h : ∀ n ∈ xs, InInt64 n) :
    convertIntItems (stringsJoin (xs.map formatInt) ",") = some xs := by
  match xs, h with
  | [], _ => rfl
  | [n], h =>
    have hn := h n (List.mem_cons_self n [])
    simp only [List.map_cons, List.map_nil, stringsJoin_singleton, convertIntItems,
      formatInt_ne_empty, if_false, parseInt_formatInt n hn.1 hn.2]
  | n :: m :: rest, h =>
    have hc := stringsJoin_comma_mem (formatInt n) (formatInt m) (rest.map formatInt)
    have hne : stringsJoin ((n :: m :: rest).map formatInt) "," ≠ "" := by
      intro e
      rw [show stringsJoin (formatInt n :: formatInt m :: rest.map formatInt) "," = "" from e]
        at hc
      exact absurd hc (List.not_mem_nil _)
    have hsplit : stringsSplitComma (stringsJoin ((n :: m :: rest).map formatInt) ",") =
        (n :: m :: rest).map formatInt := by
      apply stringsSplitComma_stringsJoin
      · simp
      · intro y hy
        obtain ⟨k, -, rfl⟩ := List.mem_map.mp hy
        exact formatInt_no_comma k
    unfold convertIntItems
    rw [if_neg hne, parseInt_none_of_comma _ (by simpa using hc)]
    simp only
    rw [if_pos (by simpa using hc), hsplit, foldl_pieces_formatInt _ [] h]
    simp

theorem convertIntSlice_join (xs : List Int) (h : ∀ n ∈ xs, InInt64 n) :
    convertIntSlice [stringsJoin (xs.map formatInt) ","] = some xs := by
  simp [convertIntSlice, convertIntItems_join xs h]

/-! ### The entries of `ToURLValues` -/

theorem Values.Set_of_not_mem (values : Values) (key value : String)
    (h : key ∉ values.keys) : values.Set key value = values ++ [(key, [value])] := by
  induction values with
  | nil => rfl
  | cons kv rest ih =>
    obtain ⟨k, vs⟩ := kv
    have hk : k ≠ key := fun e => h (by simp [Values.keys, e])
    have hr : key ∉ Values.keys rest := fun e => h (by
      simp only [Values.keys, List.map_cons, List.mem_cons]
      exact Or.inr e)
    simp only [Values.Set, hk, if_false, ih hr, List.cons_append]

theorem foldl_Set_of_nodup (l : List (String × FieldValue)) :
    ∀ (acc : Values), (l.map Prod.fst).Nodup → (∀ k ∈ l.map Prod.fst, k ∉ acc.keys) →
      l.foldl (fun values kv => values.Set kv.1 (renderValue kv.2)) acc =
        acc ++ l.map (fun kv => (kv.1, [renderValue kv.2])) := by
  induction l with
  | nil => intro acc _ _; simp
  | cons kv l ih =>
    intro acc hnd hacc
    simp only [List.map_cons, List.nodup_cons] at hnd
    simp only [List.foldl_cons]
    rw [Values.Set_of_not_mem acc kv.1 _ (hacc kv.1 (by simp))]
    rw [ih _ hnd.2]
    · simp
    · intro k hk hk2
      simp only [Values.keys, List.map_append, List.map_cons, List.map_nil, List.mem_append,
        List.mem_singleton] at hk2
      rcases hk2 with hk2 | hk2
      · exact hacc k (by simp only [List.map_cons, List.mem_cons]; exact Or.inr hk) hk2
      · exact hnd.1 (hk2 ▸ hk)

theorem structFields_keys (p : RequestParameters) :
    (structFields p).map Prod.fst =
      ["premium_proxy", "proxy_country", "autoparse", "css_extractor", "json_response",
       "response_type", "outputs", "js_render", "js_instructions", "wait", "wait_for",
       "screenshot", "screenshot_fullpage", "screenshot_selector", "screenshot_format",
       "screenshot_quality", "original_status", "session_id", "allowed_status_codes",
       "block_resources"] := rfl

theorem structFields_keys_nodup (p : RequestParameters) :
    ((structFields p).map Prod.fst).Nodup := by
  rw [structFields_keys]
  decide

theorem structsMap_keys_sublist (p : RequestParameters) :
    ((structsMap p).map Prod.fst).Sublist ((structFields p).map Prod.fst) :=
  (List.filter_sublist _).map _

theorem structsMap_keys_nodup (p : RequestParameters) :
    ((structsMap p).map Prod.fst).Nodup :=
  (structFields_keys_nodup p).sublist (structsMap_keys_sublist p)

theorem fieldEntries_keys (p : RequestParameters) :
    (fieldEntries p).keys = (structsMap p).map Prod.fst := by
  simp [fieldEntries, Values.keys, Function.comp_def]

theorem custom_headers_not_mem_keys (p : RequestParameters) :
    "custom_headers" ∉ (fieldEntries p).keys := by
  rw [fieldEntries_keys]
  intro h
  have := (structsMap_keys_sublist p).subset h
  rw [structFields_keys] at this
  revert this
  decide

theorem ToURLValues_eq (p : RequestParameters) :
    ToURLValues p =
      fieldEntries p ++ (if p.CustomHeaders = [] then [] else [("custom_headers", ["true"])]) := by
  have hfold : (structsMap p).foldl
      (fun (values : Values) kv => values.Set kv.1 (renderValue kv.2)) [] = fieldEntries p := by
    rw [foldl_Set_of_nodup _ [] (structsMap_keys_nodup p) (fun k _ h => by simp [Values.keys] at h)]
    rfl
  unfold ToURLValues
  simp only [hfold]
  cases hh : p.CustomHeaders with
  | nil => simp
  | cons x xs =>
    simp only [List.length_cons, Nat.succ_pos, gt_iff_lt, Nat.zero_lt_succ, if_true]
    rw [Values.Set_of_not_mem _ _ _ (custom_headers_not_mem_keys p)]
    simp

/-! ### Decoding the entries of `ToURLValues` -/

theorem Decode_eq_foldl (dst : RequestParameters) (src : Values) :
    Decode dst src = src.foldl decodeStep (dst, []) := rfl

theorem foldl_decodeStep_fieldEntries (l : List (String × FieldValue)) :
    ∀ st, ((l.filter fun kv => !kv.2.isZero).map fun kv => (kv.1, [renderValue kv.2])).foldl
      decodeStep st = l.foldl fieldStep st := by
  induction l with
  | nil => intro st; rfl
  | cons kv l ih =>
    intro st
    cases hz : kv.2.isZero
    · simp only [List.filter_cons, hz, Bool.not_false, if_true, List.map_cons, List.foldl_cons,
        ih, fieldStep, Bool.false_eq_true, if_false]
    · simp only [List.filter_cons, hz, Bool.not_true, Bool.false_eq_true, if_false,
        List.foldl_cons, ih, fieldStep, if_true]

theorem lastValue_singleton (v : String) : lastValue [v] = v := rfl

theorem fieldStep_bool (d : RequestParameters) (k : String) (b : Bool)
    (set : RequestParameters → Bool → RequestParameters)
    (hdec : ∀ vs, decodeField d k vs = decodeBool k vs d set) (hz : set d false = d) :
    fieldStep (d, []) (k, .bool b) = (set d b, []) := by
  cases b
  · simp [fieldStep, FieldValue.isZero, hz]
  · simp only [fieldStep, FieldValue.isZero, Bool.not_true, Bool.false_eq_true, if_false,
      decodeStep, hdec, renderValue]
    rfl

theorem fieldStep_string (d : RequestParameters) (k : String) (s : String)
    (set : RequestParameters → String → RequestParameters)
    (hdec : ∀ vs, decodeField d k vs = decodeString vs d set) (hz : set d "" = d) :
    fieldStep (d, []) (k, .string s) = (set d s, []) := by
  by_cases hs : s = ""
  · subst hs
    simp [fieldStep, FieldValue.isZero, hz]
  · simp [fieldStep, FieldValue.isZero, hs, decodeStep, hdec, renderValue, decodeString,
      lastValue_singleton]

theorem fieldStep_int (d : RequestParameters) (k : String) (n : Int)
    (set : RequestParameters → Int → RequestParameters)
    (hdec : ∀ vs, decodeField d k vs = decodeInt k vs d set) (hz : set d 0 = d)
    (hn : InInt64 n) :
    fieldStep (d, []) (k, .int n) = (set d n, []) := by
  by_cases h0 : n = 0
  · subst h0
    simp [fieldStep, FieldValue.isZero, hz]
  · simp [fieldStep, FieldValue.isZero, h0, decodeStep, hdec, renderValue, decodeInt,
      lastValue_singleton, formatInt_ne_empty, parseInt_formatInt n hn.1 hn.2]

theorem fieldStep_stringSlice (d : RequestParameters) (k : String) (xs : GoSlice String)
    (set : RequestParameters → GoSlice String → RequestParameters)
    (hdec : ∀ vs, decodeField d k vs = .ok (set d (some (stringsSplitComma (lastValue vs)))))
    (hz : set d none = d) (hne : xs ≠ some []) (hc : ∀ x ∈ xs.elems, ',' ∉ x.data) :
    fieldStep (d, []) (k, .stringSlice xs) = (set d xs, []) := by
  cases xs with
  | none => simp [fieldStep, FieldValue.isZero, hz]
  | some l =>
    have hl : l ≠ [] := fun e => hne (by rw [e])
    simp only [fieldStep, FieldValue.isZero, Option.isNone_some, Bool.false_eq_true, if_false,
      decodeStep, hdec, renderValue, lastValue_singleton, GoSlice.elems, Option.getD_some]
    rw [stringsSplitComma_stringsJoin l hl hc]

theorem fieldStep_intSlice (d : RequestParameters) (k : String) (xs : GoSlice Int)
    (set : RequestParameters → GoSlice Int → RequestParameters)
    (hdec : ∀ vs, decodeField d k vs =
      match convertIntSlice vs with
      | some items => .ok (set d (some items))
      | none => .error (.ConversionError k))
    (hz : set d none = d) (h64 : ∀ n ∈ xs.elems, InInt64 n) :
    fieldStep (d, []) (k, .intSlice xs) = (set d xs, []) := by
  cases xs with
  | none => simp [fieldStep, FieldValue.isZero, hz]
  | some l =>
    simp only [fieldStep, FieldValue.isZero, Option.isNone_some, Bool.false_eq_true, if_false,
      decodeStep, hdec, renderValue, GoSlice.elems, Option.getD_some,
      convertIntSlice_join l h64]

theorem AllOutputTypes_no_comma : ∀ o ∈ AllOutputTypes, ',' ∉ o.data := by decide

theorem AllResourceTypes_no_comma : ∀ r ∈ AllResourceTypes, ',' ∉ r.data := by decide

theorem Decode_fieldEntries (p : RequestParameters) (hv : Validate p = .ok ())
    (ho : p.Outputs ≠ some []) (hb : p.BlockResources ≠ some [])
    (hi : ∀ n ∈ p.AllowedStatusCodes.elems, InInt64 n) :
    Decode {} (fieldEntries p) = ({ p with CustomHeaders := [] }, []) := by
  obtain ⟨hq, hs, hw, -, -, hO, hB, -⟩ := (Validate_ok_iff p).mp hv
  have hq64 : InInt64 p.ScreenshotQuality := ⟨by omega, by omega⟩
  have hs64 : InInt64 p.SessionID := ⟨by omega, by omega⟩
  have hw64 : InInt64 p.WaitMilliseconds := ⟨by omega, by omega⟩
  have hOc : ∀ x ∈ p.Outputs.elems, ',' ∉ x.data := fun x hx =>
    AllOutputTypes_no_comma x (hO x hx)
  have hBc : ∀ x ∈ p.BlockResources.elems, ',' ∉ x.data := fun x hx =>
    AllResourceTypes_no_comma x (hB x hx)
  rw [Decode_eq_foldl, fieldEntries, structsMap, foldl_decodeStep_fieldEntries]
  simp only [structFields, List.foldl_cons, List.foldl_nil]
  rw [fieldStep_bool _ "premium_proxy" p.UsePremiumProxies
        (fun d x => { d with UsePremiumProxies := x }) (fun _ => rfl) rfl]
  rw [fieldStep_string _ "proxy_country" p.ProxyCountry
        (fun d x => { d with ProxyCountry := x }) (fun _ => rfl) rfl]
  rw [fieldStep_bool _ "autoparse" p.AutoParse
        (fun d x => { d with AutoParse := x }) (fun _ => rfl) rfl]
  rw [fieldStep_string _ "css_extractor" p.CSSExtractor
        (fun d x => { d with CSSExtractor := x }) (fun _ => rfl) rfl]
  rw [fieldStep_bool _ "json_response" p.JSONResponse
        (fun d x => { d with JSONResponse := x }) (fun _ => rfl) rfl]
  rw [fieldStep_string _ "response_type" p.ResponseType
        (fun d x => { d with ResponseType := x }) (fun _ => rfl) rfl]
  rw [fieldStep_stringSlice _ "outputs" p.Outputs
        (fun d x => { d with Outputs := x }) (fun _ => rfl) rfl ho hOc]
  rw [fieldStep_bool _ "js_render" p.JSRender
        (fun d x => { d with JSRender := x }) (fun _ => rfl) rfl]
  rw [fieldStep_string _ "js_instructions" p.JSInstructions
        (fun d x => { d with JSInstructions := x }) (fun _ => rfl) rfl]
  rw [fieldStep_int _ "wait" p.WaitMilliseconds
        (fun d x => { d with WaitMilliseconds := x }) (fun _ => rfl) rfl hw64]
  rw [fieldStep_string _ "wait_for" p.WaitForSelector
        (fun d x => { d with WaitForSelector := x }) (fun _ => rfl) rfl]
  rw [fieldStep_bool _ "screenshot" p.Screenshot
        (fun d x => { d with Screenshot := x }) (fun _ => rfl) rfl]
  rw [fieldStep_bool _ "screenshot_fullpage" p.ScreenshotFullPage
        (fun d x => { d with ScreenshotFullPage := x }) (fun _ => rfl) rfl]
  rw [fieldStep_string _ "screenshot_selector" p.ScreenshotSelector
        (fun d x => { d with ScreenshotSelector := x }) (fun _ => rfl) rfl]
  rw [fieldStep_string _ "screenshot_format" p.ScreenshotFormat
        (fun d x => { d with ScreenshotFormat := x }) (fun _ => rfl) rfl]
  rw [fieldStep_int _ "screenshot_quality" p.ScreenshotQuality
        (fun d x => { d with ScreenshotQuality := x }) (fun _ => rfl) rfl hq64]
  rw [fieldStep_bool _ "original_status" p.ReturnOriginalStatus
        (fun d x => { d with ReturnOriginalStatus := x }) (fun _ => rfl) rfl]
  rw [fieldStep_int _ "session_id" p.SessionID
        (fun d x => { d with SessionID := x }) (fun _ => rfl) rfl hs64]
  rw [fieldStep_intSlice _ "allowed_status_codes" p.AllowedStatusCodes
        (fun d x => { d with AllowedStatusCodes := x }) (fun _ => rfl) rfl hi]
  rw [fieldStep_stringSlice _ "block_resources" p.BlockResources
        (fun d x => { d with BlockResources := x }) (fun _ => rfl) rfl hb hBc]

theorem ParseQuery_fieldEntries (p : RequestParameters) (hv : Validate p = .ok ())
    (ho : p.Outputs ≠ some []) (hb : p.BlockResources ≠ some [])
    (hi : ∀ n ∈ p.AllowedStatusCodes.elems, InInt64 n) :
    ParseQueryRequestParameters (fieldEntries p) = .ok { p with CustomHeaders := [] } := by
  unfold ParseQueryRequestParameters
  rw [Decode_fieldEntries p hv ho hb hi]

/-! ### Looking up the entries of `ToURLValues` -/

theorem Values.lookup_append (a b : Values) (k : String) :
    Values.lookup (a ++ b) k =
      match Values.lookup a k with
      | some vs => some vs
      | none => Values.lookup b k := by
  induction a with
  | nil => rfl
  | cons kv a ih =>
    obtain ⟨k2, vs⟩ := kv
    by_cases h : k2 = k
    · simp [Values.lookup, h]
    · show Values.lookup ((k2, vs) :: (a ++ b)) k = _
      simp only [Values.lookup, h, if_false, ih]

theorem Values.lookup_eq_none (a : Values) (k : String) (h : k ∉ a.keys) :
    Values.lookup a k = none := by
  induction a with
  | nil => rfl
  | cons kv a ih =>
    obtain ⟨k2, vs⟩ := kv
    have hk : k2 ≠ k := fun e => h (by simp [Values.keys, e])
    have ha : k ∉ Values.keys a := fun e => h (by
      simp only [Values.keys, List.map_cons, List.mem_cons]
      exact Or.inr e)
    simp only [Values.lookup, hk, if_false, ih ha]

theorem lookup_filter_map (l : List (String × FieldValue)) (k : String) (v : FieldValue)
    (hnd : (l.map Prod.fst).Nodup) (h : (k, v) ∈ l) :
    Values.lookup ((l.filter fun kv => !kv.2.isZero).map fun kv => (kv.1, [renderValue kv.2])) k =
      if v.isZero then none else some [renderValue v] := by
  induction l with
  | nil => exact absurd h (List.not_mem_nil _)
  | cons kv l ih =>
    simp only [List.map_cons, List.nodup_cons] at hnd
    rcases List.mem_cons.mp h with e | h
    · subst e
      cases hz : v.isZero
      · simp [List.filter_cons, hz, Values.lookup]
      · simp only [List.filter_cons, hz, Bool.not_true, Bool.false_eq_true, if_false, if_true]
        apply Values.lookup_eq_none
        intro hm
        apply hnd.1
        have hsub : ((l.filter fun kv => !kv.2.isZero).map Prod.fst).Sublist (l.map Prod.fst) :=
          (List.filter_sublist _).map _
        apply hsub.subset
        simpa [Values.keys, Function.comp_def] using hm
    · have hk : kv.1 ≠ k := by
        intro e
        apply hnd.1
        rw [e]
        exact List.mem_map.mpr ⟨(k, v), h, rfl⟩
      cases hz : kv.2.isZero
      · simp only [List.filter_cons, hz, Bool.not_false, if_true, List.map_cons, Values.lookup,
          hk, if_false]
        exact ih hnd.2 h
      · simp only [List.filter_cons, hz, Bool.not_true, Bool.false_eq_true, if_false]
        exact ih hnd.2 h

theorem lookup_fieldEntries (p : RequestParameters) (k : String) (v : FieldValue)
    (h : (k, v) ∈ structFields p) :
    Values.lookup (fieldEntries p) k = if v.isZero then none else some [renderValue v] :=
  lookup_filter_map (structFields p) k v (structFields_keys_nodup p) h

theorem lookup_ToURLValues_field (p : RequestParameters) (k : String) (v : FieldValue)
    (h : (k, v) ∈ structFields p) :
    Values.lookup (ToURLValues p) k = if v.isZero then none else some [renderValue v] := by
  have hk : k ≠ "custom_headers" := by
    intro e
    have hm : k ∈ (structFields p).map Prod.fst := List.mem_map.mpr ⟨(k, v), h, rfl⟩
    rw [structFields_keys, e] at hm
    revert hm
    decide
  rw [ToURLValues_eq, Values.lookup_append, lookup_fieldEntries p k v h]
  cases hz : v.isZero
  · simp
  · simp only [if_true]
    by_cases hh : p.CustomHeaders = [] <;> simp [hh, Values.lookup, Ne.symm hk]

theorem lookup_ToURLValues_custom_headers (p : RequestParameters) :
    Values.lookup (ToURLValues p) "custom_headers" =
      if p.CustomHeaders = [] then none else some ["true"] := by
  rw [ToURLValues_eq, Values.lookup_append,
    Values.lookup_eq_none _ _ (custom_headers_not_mem_keys p)]
  dsimp only
  by_cases hh : p.CustomHeaders = [] <;> simp [hh, Values.lookup]

theorem lookup_ToURLValues_other (p : RequestParameters) (k : String)
    (h : k ∉ "custom_headers" :: (structFields p).map Prod.fst) :
    Values.lookup (ToURLValues p) k = none := by
  have h1 : k ≠ "custom_headers" := fun e => h (by rw [e]; exact List.mem_cons_self _ _)
  have h2 : k ∉ (fieldEntries p).keys := by
    rw [fieldEntries_keys]
    intro hm
    exact h (List.mem_cons_of_mem _ ((structsMap_keys_sublist p).subset hm))
  rw [ToURLValues_eq, Values.lookup_append, Values.lookup_eq_none _ _ h2]
  dsimp only
  by_cases hh : p.CustomHeaders = [] <;> simp [hh, Values.lookup, Ne.symm h1]

theorem ToURLValues_keys_nodup (p : RequestParameters) : (ToURLValues p).keys.Nodup := by
  rw [ToURLValues_eq]
  have h1 : (fieldEntries p).keys.Nodup := by
    rw [fieldEntries_keys]; exact structsMap_keys_nodup p
  split
  · simpa using h1
  · simp only [Values.keys, List.map_append, List.map_cons, List.map_nil]
    rw [List.nodup_append]
    refine ⟨h1, List.nodup_singleton _, ?_⟩
    intro a ha hb
    rw [List.mem_singleton] at hb
    subst hb
    exact custom_headers_not_mem_keys p ha

theorem ToURLValues_values_singleton (p : RequestParameters) :
    ∀ kv ∈ ToURLValues p, kv.2.length = 1 := by
  rw [ToURLValues_eq]
  intro kv hkv
  rcases List.mem_append.mp hkv with h | h
  · obtain ⟨x, -, rfl⟩ := List.mem_map.mp h
    rfl
  · split at h
    · exact absurd h (List.not_mem_nil _)
    · rw [List.mem_singleton] at h
      subst h
      rfl

theorem stringsJoin_data (x : String) (xs : List String) :
    (stringsJoin (x :: xs) ",").data = x.data ++ (xs.map fun y => ',' :: y.data).flatten := by
  show List.intercalate [','] ((x :: xs).map String.data) = _
  induction xs generalizing x with
  | nil => simp [List.intercalate]
  | cons y ys ih =>
    have e : List.intercalate [','] ((x :: y :: ys).map String.data) =
        x.data ++ (',' :: List.intercalate [','] ((y :: ys).map String.data)) := by
      simp [List.intercalate]
    rw [e, ih y]
    simp

/-! ## Properties of Validate -/

/-- C1: `Validate` returns no error exactly when the ranges, the enumeration memberships and
the four dependency rules all hold, and its result does not change when `AutoParse`,
`CSSExtractor`, `JSONResponse`, `ReturnOriginalStatus`, `AllowedStatusCodes` or
`CustomHeaders` are replaced by any other values. -/
theorem Validate_ok_iff_all_rules (p : RequestParameters) :
    (Validate p = .ok () ↔
      (0 ≤ p.ScreenshotQuality ∧ p.ScreenshotQuality ≤ 100) ∧
      (0 ≤ p.SessionID ∧ p.SessionID ≤ 99999) ∧
      (0 ≤ p.WaitMilliseconds ∧ p.WaitMilliseconds ≤ 30000) ∧
      (p.ResponseType = "" ∨ p.ResponseType ∈ ["markdown", "plaintext", "pdf"]) ∧
      (p.ScreenshotFormat = "" ∨ p.ScreenshotFormat ∈ ["png", "jpeg"]) ∧
      (∀ o ∈ p.Outputs.elems, o ∈ ["emails", "phone_numbers", "headings", "images", "audios",
        "videos", "links", "tables", "menus", "hashtags", "metadata", "favicon", "*"]) ∧
      (∀ r ∈ p.BlockResources.elems, r ∈ ["eventsource", "fetch", "font", "image", "manifest",
        "media", "other", "script", "stylesheet", "texttrack", "websocket", "xhr"]) ∧
      (p.JSRender = false → p.Screenshot = false ∧ p.JSInstructions = "" ∧
        p.WaitForSelector = "" ∧ p.WaitMilliseconds = 0 ∧ p.BlockResources.elems = []) ∧
      (p.Screenshot = false → p.ScreenshotFullPage = false ∧ p.ScreenshotSelector = "" ∧
        p.ScreenshotFormat = "" ∧ p.ScreenshotQuality = 0) ∧
      (p.ScreenshotQuality > 0 → p.ScreenshotFormat = "jpeg") ∧
      (p.ProxyCountry ≠ "" → p.UsePremiumProxies = true)) ∧
    (∀ (autoParse : Bool) (cssExtractor : String) (jsonResponse returnOriginalStatus : Bool)
        (allowedStatusCodes : GoSlice Int) (customHeaders : Header),
      Validate { p with AutoParse := autoParse, CSSExtractor := cssExtractor,
                        JSONResponse := jsonResponse,
                        ReturnOriginalStatus := returnOriginalStatus,
                        AllowedStatusCodes := allowedStatusCodes,
                        CustomHeaders := customHeaders } = Validate p) := by
  refine ⟨Validate_ok_iff p, ?_⟩
  intro a c j r s h
  rw [Validate_eq_firstViolation, Validate_eq_firstViolation]
  rfl

/-- C2: when `p` violates at least one check of the specification, `Validate` returns the
message of the first violated check in the specification's order: every check before it is
not violated, and no violated check belongs to a lower-numbered rule. A quality of 101
together with a session id of -1 yields the screenshot quality message. -/
theorem Validate_reports_first_violated_rule :
    (∀ p : RequestParameters, (∃ c ∈ specChecks, c.violated p = true) →
      ∃ pre c post, specChecks = pre ++ c :: post ∧ c.violated p = true ∧
        (∀ d ∈ pre, d.violated p = false) ∧
        (∀ d ∈ specChecks, d.violated p = true → c.rule ≤ d.rule) ∧
        Validate p = .error ⟨c.msg⟩) ∧
    (∀ p : RequestParameters, p.ScreenshotQuality = 101 → p.SessionID = -1 →
      Validate p = .error ⟨"screenshot quality must be between 1 and 100"⟩) := by
  constructor
  · intro p h
    obtain ⟨pre, c, post, hsplit, hc, hpre, hrep⟩ := report_first p specChecks h
    refine ⟨pre, c, post, hsplit, hc, hpre, ?_, ?_⟩
    · intro d hd hdv
      have hsorted := specChecks_rules_sorted
      rw [hsplit] at hsorted hd
      rcases List.mem_append.mp hd with hd | hd
      · rw [hpre d hd] at hdv
        exact Bool.noConfusion hdv
      · rcases List.mem_cons.mp hd with rfl | hd
        · exact Nat.le_refl _
        · exact List.rel_of_pairwise_cons (List.pairwise_append.mp hsorted).2.1 hd
    · rw [Validate_eq_firstViolation]
      exact hrep
  · intro p hq hs
    rw [Validate_eq_firstViolation, firstViolation, specChecks]
    exact report_cons_of_violated p _ _ (by simp [hq])

/-- Witness for C2: quality 101 with session id -1 violates a check, and the message
reported belongs to the first violated one. -/
theorem Validate_reports_first_violated_rule_witness :
    (∃ c ∈ specChecks,
      c.violated { ScreenshotQuality := 101, SessionID := -1 } = true) ∧
    (∃ pre c post, specChecks = pre ++ c :: post ∧
      c.violated { ScreenshotQuality := 101, SessionID := -1 } = true ∧
      (∀ d ∈ pre, d.violated { ScreenshotQuality := 101, SessionID := -1 } = false) ∧
      (∀ d ∈ specChecks, d.violated { ScreenshotQuality := 101, SessionID := -1 } = true →
        c.rule ≤ d.rule) ∧
      Validate { ScreenshotQuality := 101, SessionID := -1 } = .error ⟨c.msg⟩) ∧
    Validate { ScreenshotQuality := 101, SessionID := -1 } =
      .error ⟨"screenshot quality must be between 1 and 100"⟩ :=
  have hv : ∃ c ∈ specChecks,
      c.violated { ScreenshotQuality := 101, SessionID := -1 } = true :=
    ⟨⟨2, fun p => decide (¬ (0 ≤ p.SessionID ∧ p.SessionID ≤ 99999)),
        "session id must be between 0 and 99999"⟩, .tail _ (.head _), by decide⟩
  ⟨hv, Validate_reports_first_violated_rule.1 _ hv,
    Validate_reports_first_violated_rule.2 _ rfl rfl⟩

/-- C3: without JavaScript rendering, `Validate` returns an error whenever a screenshot is
requested, or JavaScript instructions, a positive wait, a wait selector or blocked resources
are given, whatever the other fields hold. -/
theorem Validate_rejects_js_options_without_js_render (p : RequestParameters)
    (hjs : p.JSRender = false)
    (h : p.Screenshot = true ∨ p.JSInstructions ≠ "" ∨ p.WaitMilliseconds > 0 ∨
      p.WaitForSelector ≠ "" ∨ p.BlockResources.elems ≠ []) :
    ∃ e, Validate p = .error e := by
  rcases valid_ok_or_error p with hok | herr
  · exfalso
    obtain ⟨-, -, -, -, -, -, -, hJ, -⟩ := (Validate_ok_iff p).mp hok
    obtain ⟨h1, h2, h3, h4, h5⟩ := hJ hjs
    rcases h with h | h | h | h | h
    · rw [h1] at h; exact Bool.noConfusion h
    · exact h h2
    · omega
    · exact h h3
    · exact h h5
  · exact herr

/-- Witness for C3: a screenshot requested without JavaScript rendering is rejected. -/
theorem Validate_rejects_js_options_without_js_render_witness :
    ∃ e, Validate { Screenshot := true } = .error e :=
  Validate_rejects_js_options_without_js_render { Screenshot := true } rfl (Or.inl rfl)

/-- C4: without a screenshot, `Validate` returns an error whenever the full-page flag is
set, a screenshot selector or format is given, or the screenshot quality is not zero
(negative values included), whatever the other fields hold. -/
theorem Validate_rejects_screenshot_options_without_screenshot (p : RequestParameters)
    (hs : p.Screenshot = false)
    (h : p.ScreenshotFullPage = true ∨ p.ScreenshotSelector ≠ "" ∨ p.ScreenshotFormat ≠ "" ∨
      p.ScreenshotQuality ≠ 0) :
    ∃ e, Validate p = .error e := by
  rcases valid_ok_or_error p with hok | herr
  · exfalso
    obtain ⟨-, -, -, -, -, -, -, -, hS, -⟩ := (Validate_ok_iff p).mp hok
    obtain ⟨h1, h2, h3, h4⟩ := hS hs
    rcases h with h | h | h | h
    · rw [h1] at h; exact Bool.noConfusion h
    · exact h h2
    · exact h h3
    · exact h h4
  · exact herr

/-- Witness for C4: a negative screenshot quality without a screenshot is rejected. -/
theorem Validate_rejects_screenshot_options_without_screenshot_witness :
    ∃ e, Validate { JSRender := true, ScreenshotQuality := -5 } = .error e :=
  Validate_rejects_screenshot_options_without_screenshot
    { JSRender := true, ScreenshotQuality := -5 } rfl (Or.inr (Or.inr (Or.inr (by decide))))

/-- C9: with only `JSRender = true` and `WaitMilliseconds = w` set, `Validate` accepts exactly
when `0 ≤ w ≤ 30000` and otherwise reports the wait range message; with only `SessionID = s`
set it accepts exactly when `0 ≤ s ≤ 99999` and otherwise reports the session id message.
The boundary values 0, 30000, -1, 30001 and 0, 99999, -1, 100000 behave accordingly. -/
theorem Validate_wait_and_session_boundaries :
    (∀ w : Int, Validate { JSRender := true, WaitMilliseconds := w } =
      if 0 ≤ w ∧ w ≤ 30000 then .ok ()
      else .error ⟨"wait must be between 0 and 30000 (ms)"⟩) ∧
    (∀ s : Int, Validate { SessionID := s } =
      if 0 ≤ s ∧ s ≤ 99999 then .ok ()
      else .error ⟨"session id must be between 0 and 99999"⟩) ∧
    Validate { JSRender := true, WaitMilliseconds := 0 } = .ok () ∧
    Validate { JSRender := true, WaitMilliseconds := 30000 } = .ok () ∧
    Validate { JSRender := true, WaitMilliseconds := -1 } =
      .error ⟨"wait must be between 0 and 30000 (ms)"⟩ ∧
    Validate { JSRender := true, WaitMilliseconds := 30001 } =
      .error ⟨"wait must be between 0 and 30000 (ms)"⟩ ∧
    Validate { SessionID := 0 } = .ok () ∧
    Validate { SessionID := 99999 } = .ok () ∧
    Validate { SessionID := -1 } = .error ⟨"session id must be between 0 and 99999"⟩ ∧
    Validate { SessionID := 100000 } = .error ⟨"session id must be between 0 and 99999"⟩ := by
  refine ⟨?_, ?_, by decide, by decide, by decide, by decide, by decide, by decide, by decide,
    by decide⟩
  · intro w
    by_cases hw : 0 ≤ w ∧ w ≤ 30000
    · rw [if_pos hw, Validate_ok_iff]
      simp [GoSlice.elems, hw.1, hw.2]
    · rw [if_neg hw, Validate_eq_firstViolation, firstViolation, specChecks]
      iterate 2 (rw [report_cons_of_not_violated _ _ _ (by simp)])
      exact report_cons_of_violated _ _ _ (by simp; omega)
  · intro s
    by_cases hs : 0 ≤ s ∧ s ≤ 99999
    · rw [if_pos hs, Validate_ok_iff]
      simp [GoSlice.elems, hs.1, hs.2]
    · rw [if_neg hs, Validate_eq_firstViolation, firstViolation, specChecks]
      rw [report_cons_of_not_violated _ _ _ (by simp)]
      exact report_cons_of_violated _ _ _ (by simp; omega)

/-- C10, refuted as stated: with `Screenshot = true`, `ScreenshotFormat = jpeg`,
`ScreenshotQuality = 1` and every other field default (so `JSRender = false`), `Validate`
returns the error that a screenshot needs JavaScript rendering. -/
theorem Validate_quality_one_all_else_default_rejected :
    Validate { Screenshot := true, ScreenshotFormat := "jpeg", ScreenshotQuality := 1 } =
      .error ⟨"screenshot is only available when using javascript rendering"⟩ ∧
    ¬ (∀ q : Int, 1 ≤ q → q ≤ 100 →
      Validate { Screenshot := true, ScreenshotFormat := "jpeg", ScreenshotQuality := q } =
        .ok ()) := by
  refine ⟨by decide, ?_⟩
  intro h
  exact absurd (h 1 (by decide) (by decide)) (by decide)

/-- C10, amended: with `JSRender = true`, `Screenshot = true`, `ScreenshotFormat = jpeg`,
`ScreenshotQuality = q` and every other field default, `Validate` returns no error when
`1 ≤ q ≤ 100`; without `JSRender` the same value is rejected because a screenshot needs
JavaScript rendering; and `q = 101` yields the screenshot quality message in both cases. -/
theorem Validate_quality_boundaries (q : Int) (h1 : 1 ≤ q) (h100 : q ≤ 100) :
    Validate { JSRender := true, Screenshot := true, ScreenshotFormat := "jpeg",
               ScreenshotQuality := q } = .ok () ∧
    Validate { Screenshot := true, ScreenshotFormat := "jpeg", ScreenshotQuality := q } =
      .error ⟨"screenshot is only available when using javascript rendering"⟩ ∧
    Validate { JSRender := true, Screenshot := true, ScreenshotFormat := "jpeg",
               ScreenshotQuality := 101 } =
      .error ⟨"screenshot quality must be between 1 and 100"⟩ ∧
    Validate { Screenshot := true, ScreenshotFormat := "jpeg", ScreenshotQuality := 101 } =
      .error ⟨"screenshot quality must be between 1 and 100"⟩ := by
  refine ⟨?_, ?_, by decide, by decide⟩
  · rw [Validate_ok_iff]
    simp [GoSlice.elems]
    omega
  · rw [Validate_eq_firstViolation, firstViolation, specChecks]
    iterate 7 (rw [report_cons_of_not_violated _ _ _ (by simp [GoSlice.elems, AllScreenshotFormats, ScreenshotFormatJPEG]; try omega)])
    exact report_cons_of_violated _ _ _ (by simp)

/-- Witness for C10 (amended): the boundary quality 100. -/
theorem Validate_quality_boundaries_witness :
    Validate { JSRender := true, Screenshot := true, ScreenshotFormat := "jpeg",
               ScreenshotQuality := 100 } = .ok () :=
  (Validate_quality_boundaries 100 (by decide) (by decide)).1

/-! ## Properties of ToURLValues and ParseQueryRequestParameters -/

/-- C5, refuted as stated: a valid value with a custom header is encoded with the entry
`custom_headers=true`, whose key names no field of the decoder, so decoding the encoding
fails; and a valid value whose `Outputs` is a non-nil slice without elements is encoded with
the entry `outputs=`, which decodes to the one-element slice holding the empty token. -/
theorem roundtrip_fails_with_custom_headers :
    Validate { CustomHeaders := [("X-Request-Id", ["abc"])] } = .ok () ∧
    ParseQueryRequestParameters (ToURLValues { CustomHeaders := [("X-Request-Id", ["abc"])] }) =
      .error [.UnknownKeyError "custom_headers"] ∧
    Validate { Outputs := some [] } = .ok () ∧
    ParseQueryRequestParameters (ToURLValues { Outputs := some [] }) =
      .ok { Outputs := some [""] } := by
  decide

/-- C5, amended: for every value `p` on which `Validate` returns no error, whose
`CustomHeaders` is empty, whose `Outputs` and `BlockResources` are nil or hold at least one
element, and whose `AllowedStatusCodes` are 64-bit integers,
`ParseQueryRequestParameters (ToURLValues p)` succeeds and returns `p`. -/
theorem roundtrip_without_custom_headers (p : RequestParameters)
    (hv : Validate p = .ok ()) (hh : p.CustomHeaders = [])
    (ho : p.Outputs ≠ some []) (hb : p.BlockResources ≠ some [])
    (hi : ∀ n ∈ p.AllowedStatusCodes.elems, InInt64 n) :
    ParseQueryRequestParameters (ToURLValues p) = .ok p := by
  rw [ToURLValues_eq, if_pos hh, List.append_nil, ParseQuery_fieldEntries p hv ho hb hi]
  obtain ⟨⟩ := p
  simp only at hh
  subst hh
  rfl

/-- Witness for C5 (amended): a value with proxy, rendering, screenshot, session, status
code and resource options set survives encoding and decoding. -/
theorem roundtrip_without_custom_headers_witness :
    ParseQueryRequestParameters (ToURLValues
      { UsePremiumProxies := true, ProxyCountry := "US", Outputs := some ["emails", "links"],
        JSRender := true, WaitMilliseconds := 1500, Screenshot := true,
        ScreenshotFormat := "jpeg", ScreenshotQuality := 80, SessionID := 7,
        AllowedStatusCodes := some [404, 500], BlockResources := some ["image", "font"] }) =
      .ok
      { UsePremiumProxies := true, ProxyCountry := "US", Outputs := some ["emails", "links"],
        JSRender := true, WaitMilliseconds := 1500, Screenshot := true,
        ScreenshotFormat := "jpeg", ScreenshotQuality := 80, SessionID := 7,
        AllowedStatusCodes := some [404, 500], BlockResources := some ["image", "font"] } :=
  roundtrip_without_custom_headers _ (by decide) rfl (by decide) (by decide) (by decide)

/-- C6: for every field, `ToURLValues p` has an entry under the key of the field exactly when
the field does not hold the zero value of its type (`false`, `0`, the empty text, the nil
slice; for `CustomHeaders`, no header), and the entry has the single value `true` for a
boolean, the decimal text for an integer, the text itself for a string, the comma-joined
elements for a slice. No other key has an entry, no key occurs twice, and every entry has
exactly one value. The all-default value encodes to the empty map, and
`{JSRender: true, Screenshot: true, ScreenshotFormat: jpeg, ScreenshotQuality: 80}` to
exactly `js_render=true`, `screenshot=true`, `screenshot_format=jpeg`,
`screenshot_quality=80`. -/
theorem ToURLValues_entry_iff_non_default (p : RequestParameters) :
    (ToURLValues p).lookup "premium_proxy" =
      (if p.UsePremiumProxies = true then some ["true"] else none) ∧
    (ToURLValues p).lookup "proxy_country" =
      (if p.ProxyCountry = "" then none else some [p.ProxyCountry]) ∧
    (ToURLValues p).lookup "autoparse" =
      (if p.AutoParse = true then some ["true"] else none) ∧
    (ToURLValues p).lookup "css_extractor" =
      (if p.CSSExtractor = "" then none else some [p.CSSExtractor]) ∧
    (ToURLValues p).lookup "json_response" =
      (if p.JSONResponse = true then some ["true"] else none) ∧
    (ToURLValues p).lookup "response_type" =
      (if p.ResponseType = "" then none else some [p.ResponseType]) ∧
    (ToURLValues p).lookup "outputs" =
      p.Outputs.map (fun xs => [stringsJoin xs ","]) ∧
    (ToURLValues p).lookup "js_render" =
      (if p.JSRender = true then some ["true"] else none) ∧
    (ToURLValues p).lookup "js_instructions" =
      (if p.JSInstructions = "" then none else some [p.JSInstructions]) ∧
    (ToURLValues p).lookup "wait" =
      (if p.WaitMilliseconds = 0 then none else some [formatInt p.WaitMilliseconds]) ∧
    (ToURLValues p).lookup "wait_for" =
      (if p.WaitForSelector = "" then none else some [p.WaitForSelector]) ∧
    (ToURLValues p).lookup "screenshot" =
      (if p.Screenshot = true then some ["true"] else none) ∧
    (ToURLValues p).lookup "screenshot_fullpage" =
      (if p.ScreenshotFullPage = true then some ["true"] else none) ∧
    (ToURLValues p).lookup "screenshot_selector" =
      (if p.ScreenshotSelector = "" then none else some [p.ScreenshotSelector]) ∧
    (ToURLValues p).lookup "screenshot_format" =
      (if p.ScreenshotFormat = "" then none else some [p.ScreenshotFormat]) ∧
    (ToURLValues p).lookup "screenshot_quality" =
      (if p.ScreenshotQuality = 0 then none else some [formatInt p.ScreenshotQuality]) ∧
    (ToURLValues p).lookup "original_status" =
      (if p.ReturnOriginalStatus = true then some ["true"] else none) ∧
    (ToURLValues p).lookup "session_id" =
      (if p.SessionID = 0 then none else some [formatInt p.SessionID]) ∧
    (ToURLValues p).lookup "allowed_status_codes" =
      p.AllowedStatusCodes.map (fun xs => [stringsJoin (xs.map formatInt) ","]) ∧
    (ToURLValues p).lookup "block_resources" =
      p.BlockResources.map (fun xs => [stringsJoin xs ","]) ∧
    (ToURLValues p).lookup "custom_headers" =
      (if p.CustomHeaders = [] then none else some ["true"]) ∧
    (∀ k, k ∉ ["custom_headers", "premium_proxy", "proxy_country", "autoparse",
        "css_extractor", "json_response", "response_type", "outputs", "js_render",
        "js_instructions", "wait", "wait_for", "screenshot", "screenshot_fullpage",
        "screenshot_selector", "screenshot_format", "screenshot_quality", "original_status",
        "session_id", "allowed_status_codes", "block_resources"] →
      (ToURLValues p).lookup k = none) ∧
    (ToURLValues p).keys.Nodup ∧
    (∀ kv ∈ ToURLValues p, kv.2.length = 1) ∧
    formatInt 80 = "80" ∧ formatInt (-12) = "-12" ∧
    ToURLValues {} = [] ∧
    ToURLValues { JSRender := true, Screenshot := true, ScreenshotFormat := "jpeg",
                  ScreenshotQuality := 80 } =
      [("js_render", ["true"]), ("screenshot", ["true"]), ("screenshot_format", ["jpeg"]),
       ("screenshot_quality", ["80"])] := by
  have hb : ∀ (k : String) (b : Bool), (k, FieldValue.bool b) ∈ structFields p →
      (ToURLValues p).lookup k = (if b = true then some ["true"] else none) := by
    intro k b h
    rw [lookup_ToURLValues_field p k _ h]
    cases b <;> rfl
  have hs : ∀ (k : String) (s : String), (k, FieldValue.string s) ∈ structFields p →
      (ToURLValues p).lookup k = (if s = "" then none else some [s]) := by
    intro k s h
    rw [lookup_ToURLValues_field p k _ h]
    by_cases e : s = "" <;> simp [FieldValue.isZero, renderValue, e]
  have hn : ∀ (k : String) (n : Int), (k, FieldValue.int n) ∈ structFields p →
      (ToURLValues p).lookup k = (if n = 0 then none else some [formatInt n]) := by
    intro k n h
    rw [lookup_ToURLValues_field p k _ h]
    by_cases e : n = 0 <;> simp [FieldValue.isZero, renderValue, e]
  have hss : ∀ (k : String) (xs : GoSlice String),
      (k, FieldValue.stringSlice xs) ∈ structFields p →
      (ToURLValues p).lookup k = xs.map (fun l => [stringsJoin l ","]) := by
    intro k xs h
    rw [lookup_ToURLValues_field p k _ h]
    cases xs <;> simp [FieldValue.isZero, renderValue, GoSlice.elems]
  have hns : ∀ (k : String) (xs : GoSlice Int),
      (k, FieldValue.intSlice xs) ∈ structFields p →
      (ToURLValues p).lookup k = xs.map (fun l => [stringsJoin (l.map formatInt) ","]) := by
    intro k xs h
    rw [lookup_ToURLValues_field p k _ h]
    cases xs <;> simp [FieldValue.isZero, renderValue, GoSlice.elems]
  refine ⟨hb _ _ (by simp [structFields]), hs _ _ (by simp [structFields]),
    hb _ _ (by simp [structFields]), hs _ _ (by simp [structFields]),
    hb _ _ (by simp [structFields]), hs _ _ (by simp [structFields]),
    hss _ _ (by simp [structFields]), hb _ _ (by simp [structFields]),
    hs _ _ (by simp [structFields]), hn _ _ (by simp [structFields]),
    hs _ _ (by simp [structFields]), hb _ _ (by simp [structFields]),
    hb _ _ (by simp [structFields]), hs _ _ (by simp [structFields]),
    hs _ _ (by simp [structFields]), hn _ _ (by simp [structFields]),
    hb _ _ (by simp [structFields]), hn _ _ (by simp [structFields]),
    hns _ _ (by simp [structFields]), hss _ _ (by simp [structFields]),
    lookup_ToURLValues_custom_headers p, ?_, ToURLValues_keys_nodup p,
    ToURLValues_values_singleton p, by decide, by decide, by decide, by decide⟩
  intro k hk
  exact lookup_ToURLValues_other p k (by rw [structFields_keys]; exact hk)

/-- C7: a slice field with at least one element is stored by `ToURLValues` under its key as
one text: the first element, then every further element in order, each preceded by a comma;
the elements are copied as they are (integers in decimal), so there is no leading or
trailing comma and no escaping. `Outputs = [emails, links]` and
`BlockResources = [image, font]` give `outputs=emails,links` and
`block_resources=image,font`. -/
theorem ToURLValues_slices_comma_joined (p : RequestParameters) :
    (∀ (x : OutputType) (xs : List OutputType), ∃ v,
      (ToURLValues { p with Outputs := some (x :: xs) }).lookup "outputs" = some [v] ∧
      v.data = x.data ++ (xs.map fun y => ',' :: y.data).flatten) ∧
    (∀ (x : ResourceType) (xs : List ResourceType), ∃ v,
      (ToURLValues { p with BlockResources := some (x :: xs) }).lookup "block_resources" =
        some [v] ∧
      v.data = x.data ++ (xs.map fun y => ',' :: y.data).flatten) ∧
    (∀ (n : Int) (ns : List Int), ∃ v,
      (ToURLValues { p with AllowedStatusCodes := some (n :: ns) }).lookup
        "allowed_status_codes" = some [v] ∧
      v.data = (formatInt n).data ++ (ns.map fun m => ',' :: (formatInt m).data).flatten) ∧
    ToURLValues { Outputs := some ["emails", "links"], JSRender := true,
                  BlockResources := some ["image", "font"] } =
      [("outputs", ["emails,links"]), ("js_render", ["true"]),
       ("block_resources", ["image,font"])] ∧
    ToURLValues { AllowedStatusCodes := some [404, 500, 503] } =
      [("allowed_status_codes", ["404,500,503"])] := by
  refine ⟨?_, ?_, ?_, by decide, by decide⟩
  · intro x xs
    refine ⟨stringsJoin (x :: xs) ",", ?_, stringsJoin_data x xs⟩
    rw [lookup_ToURLValues_field _ "outputs" (.stringSlice (some (x :: xs)))
      (by simp [structFields])]
    rfl
  · intro x xs
    refine ⟨stringsJoin (x :: xs) ",", ?_, stringsJoin_data x xs⟩
    rw [lookup_ToURLValues_field _ "block_resources" (.stringSlice (some (x :: xs)))
      (by simp [structFields])]
    rfl
  · intro n ns
    refine ⟨stringsJoin ((n :: ns).map formatInt) ",", ?_, ?_⟩
    · rw [lookup_ToURLValues_field _ "allowed_status_codes" (.intSlice (some (n :: ns)))
        (by simp [structFields])]
      rfl
    · rw [List.map_cons, stringsJoin_data]
      simp [Function.comp_def]

/-- C8: `ToURLValues p` has the entry `custom_headers=true` exactly when `p.CustomHeaders`
has at least one header. The result is the same for every non-empty `CustomHeaders`,
whatever the header names and values are: it is the result for `p` with `CustomHeaders`
removed, followed by the marker entry; and the result for `p` with `CustomHeaders` removed has
no entry under `custom_headers`. So every entry of the result is an entry of the result
for `p` with `CustomHeaders` removed, or the marker: nothing is copied from the headers. -/
theorem ToURLValues_custom_headers_marker (p : RequestParameters) :
    ((ToURLValues p).lookup "custom_headers" = some ["true"] ↔ p.CustomHeaders ≠ []) ∧
    ((ToURLValues p).lookup "custom_headers" = none ↔ p.CustomHeaders = []) ∧
    (∀ (name : String) (values : List String) (rest : Header),
      ToURLValues { p with CustomHeaders := (name, values) :: rest } =
        ToURLValues { p with CustomHeaders := [] } ++ [("custom_headers", ["true"])]) ∧
    (ToURLValues { p with CustomHeaders := [] }).lookup "custom_headers" = none ∧
    (∀ kv ∈ ToURLValues p,
      kv ∈ ToURLValues { p with CustomHeaders := [] } ∨ kv = ("custom_headers", ["true"])) ∧
    (∀ k : String, (ToURLValues p).lookup k =
      if k = "custom_headers" then (if p.CustomHeaders = [] then none else some ["true"])
      else (ToURLValues { p with CustomHeaders := [] }).lookup k) := by
  have hfe : ∀ h : Header, fieldEntries { p with CustomHeaders := h } = fieldEntries p :=
    fun _ => rfl
  refine ⟨?_, ?_, ?_, ?_, ?_, ?_⟩
  · rw [lookup_ToURLValues_custom_headers]
    by_cases hh : p.CustomHeaders = [] <;> simp [hh]
  · rw [lookup_ToURLValues_custom_headers]
    by_cases hh : p.CustomHeaders = [] <;> simp [hh]
  · intro name values rest
    simp only [ToURLValues_eq, hfe]
    simp
  · rw [lookup_ToURLValues_custom_headers]
    simp
  · intro kv hkv
    simp only [ToURLValues_eq, hfe] at hkv ⊢
    rcases List.mem_append.mp hkv with h | h
    · exact Or.inl (by simpa using h)
    · by_cases hh : p.CustomHeaders = []
      · simp [hh] at h
      · simp only [hh, if_false, List.mem_singleton] at h
        exact Or.inr h
  · intro k
    by_cases hk : k = "custom_headers"
    · subst hk
      rw [if_pos rfl, lookup_ToURLValues_custom_headers]
    · rw [if_neg hk]
      simp only [ToURLValues_eq, hfe, Values.lookup_append]
      by_cases hh : p.CustomHeaders = [] <;> simp [hh, Values.lookup, Ne.symm hk]

/-! ## Further properties of Validate -/

theorem report_append_of_not_violated (p : RequestParameters) (pre rest : List Check)
    (h : ∀ d ∈ pre, d.violated p = false) : report p (pre ++ rest) = report p rest := by
  induction pre with
  | nil => rfl
  | cons c pre ih =>
    rw [List.cons_append, report_cons_of_not_violated p c _ (h c (List.mem_cons_self c pre))]
    exact ih (fun d hd => h d (List.mem_cons_of_mem c hd))

theorem report_filter (p : RequestParameters) (keep : Check → Bool) (cs : List Check)
    (h : ∀ c ∈ cs, keep c = false → c.violated p = false) :
    report p (cs.filter keep) = report p cs := by
  induction cs with
  | nil => rfl
  | cons c cs ih =>
    have ih2 := ih (fun d hd => h d (List.mem_cons_of_mem c hd))
    cases hk : keep c
    · rw [List.filter_cons_of_neg (by simp [hk]), ih2,
        report_cons_of_not_violated p c cs (h c (List.mem_cons_self c cs) hk)]
    · rw [List.filter_cons_of_pos hk]
      cases hv : c.violated p
      · rw [report_cons_of_not_violated p c _ hv, report_cons_of_not_violated p c _ hv, ih2]
      · rw [report_cons_of_violated p c _ hv, report_cons_of_violated p c _ hv]

/-- C11: with `Outputs` the only field set, `Validate` returns no error exactly when every
element is one of the thirteen output tokens, and otherwise the error "invalid output type",
wherever the foreign element stands; `[emails, bogus]` is rejected, `[emails, tables]` and a
list with a repeated token are accepted. -/
theorem Validate_outputs_membership :
    (∀ outputs : GoSlice OutputType,
      Validate { Outputs := outputs } =
        if ∀ o ∈ outputs.elems, o ∈ ["emails", "phone_numbers", "headings", "images", "audios",
          "videos", "links", "tables", "menus", "hashtags", "metadata", "favicon", "*"]
        then .ok () else .error ⟨"invalid output type"⟩) ∧
    (∀ (before after : List OutputType) (other : OutputType),
      other ∉ ["emails", "phone_numbers", "headings", "images", "audios",
          "videos", "links", "tables", "menus", "hashtags", "metadata", "favicon", "*"] →
      Validate { Outputs := some (before ++ other :: after) } =
        .error ⟨"invalid output type"⟩) ∧
    Validate { Outputs := some ["emails", "bogus"] } = .error ⟨"invalid output type"⟩ ∧
    Validate { Outputs := some ["emails", "tables"] } = .ok () ∧
    Validate { Outputs := some ["emails", "emails", "*", "emails"] } = .ok () := by
  have key : ∀ outputs : GoSlice OutputType,
      Validate { Outputs := outputs } =
        if ∀ o ∈ outputs.elems, o ∈ ["emails", "phone_numbers", "headings", "images", "audios",
          "videos", "links", "tables", "menus", "hashtags", "metadata", "favicon", "*"]
        then .ok () else .error ⟨"invalid output type"⟩ := by
    intro outputs
    by_cases h : ∀ o ∈ outputs.elems, o ∈ ["emails", "phone_numbers", "headings", "images",
        "audios", "videos", "links", "tables", "menus", "hashtags", "metadata", "favicon", "*"]
    · rw [if_pos h, Validate_ok_iff]
      refine ⟨by simp, by simp, by simp, Or.inl rfl, Or.inl rfl, h, ?_,
        fun _ => ⟨rfl, rfl, rfl, rfl, rfl⟩, fun _ => ⟨rfl, rfl, rfl, rfl⟩, ?_, ?_⟩
      · intro r hr
        exact absurd hr (List.not_mem_nil r)
      · intro hq
        exact absurd hq (by simp)
      · intro hc
        exact absurd rfl hc
    · rw [if_neg h, Validate_eq_firstViolation, firstViolation, specChecks]
      iterate 5 (rw [report_cons_of_not_violated _ _ _ (by simp)])
      exact report_cons_of_violated _ _ _ (decide_eq_true h)
  refine ⟨key, ?_, by decide, by decide, by decide⟩
  intro before after other hother
  rw [key, if_neg]
  intro hall
  exact hother (hall other (by simp [GoSlice.elems]))

/-- Witness for C11: a foreign token in the middle of the list. -/
theorem Validate_outputs_membership_witness :
    Validate { Outputs := some (["emails"] ++ "bogus" :: ["links"]) } =
      .error ⟨"invalid output type"⟩ :=
  Validate_outputs_membership.2.1 ["emails"] ["links"] "bogus" (by decide)

/-- C12: a value without premium proxies, with a proxy country, that violates no check of
rules 1 to 10 is rejected by `Validate` with an `InvalidParameterError` whose message is
"proxy country is only available when using premium proxies"; the same value with
`UsePremiumProxies = true` is accepted. -/
theorem Validate_proxy_country_requires_premium (p : RequestParameters)
    (hu : p.UsePremiumProxies = false) (hc : p.ProxyCountry ≠ "")
    (hrules : ∀ c ∈ specChecks, c.rule ≤ 10 → c.violated p = false) :
    Validate p = .error ⟨"proxy country is only available when using premium proxies"⟩ ∧
    (InvalidParameterError.Error
        ⟨"proxy country is only available when using premium proxies"⟩ =
      "proxy country is only available when using premium proxies") ∧
    Validate { p with UsePremiumProxies := true } = .ok () := by
  have hsplit : specChecks = specChecks.take 17 ++ specChecks.drop 17 :=
    (List.take_append_drop 17 specChecks).symm
  have hpre : ∀ d ∈ specChecks.take 17, d.rule ≤ 10 := by
    unfold specChecks
    decide
  have hmem : ∀ d ∈ specChecks.take 17, d ∈ specChecks := fun d hd => List.mem_of_mem_take hd
  refine ⟨?_, by decide, ?_⟩
  · rw [Validate_eq_firstViolation, firstViolation, hsplit,
      report_append_of_not_violated p _ _ (fun d hd => hrules d (hmem d hd) (hpre d hd))]
    exact report_cons_of_violated p _ _ (by simp [hu, hc])
  · rw [Validate_eq_firstViolation, firstViolation, hsplit,
      report_append_of_not_violated _ _ _ (fun d hd => by
        have h1 := hrules d (hmem d hd) (hpre d hd)
        have h2 : d.violated { p with UsePremiumProxies := true } = d.violated p := by
          simp only [specChecks, List.take, List.mem_cons, List.mem_singleton,
            List.not_mem_nil, or_false] at hd
          rcases hd with rfl | rfl | rfl | rfl | rfl | rfl | rfl | rfl | rfl | rfl | rfl |
            rfl | rfl | rfl | rfl | rfl | rfl <;> rfl
        rw [h2, h1])]
    exact (report_ok_iff _ _).mpr (by simp [specChecks])

/-- Witness for C12: `{UsePremiumProxies: false, ProxyCountry: "US"}`, every other field
default. -/
theorem Validate_proxy_country_requires_premium_witness :
    Validate { ProxyCountry := "US" } =
      .error ⟨"proxy country is only available when using premium proxies"⟩ ∧
    Validate { UsePremiumProxies := true, ProxyCountry := "US" } = .ok () :=
  have h := Validate_proxy_country_requires_premium { ProxyCountry := "US" } rfl (by decide)
    (by unfold specChecks; decide)
  ⟨h.1, h.2.2⟩

/-- C16: when `ScreenshotQuality = 0`, `Validate` returns what the checks of the
specification report once rule 10 and the `screenshot_quality` sub-check of rule 9 are taken
out; the sixteen remaining checks are the others, in their order. The value
`{JSRender: true, Screenshot: true, ScreenshotFormat: jpeg, ScreenshotQuality: 0}` is
accepted. -/
theorem Validate_zero_quality_is_unset (p : RequestParameters) (h0 : p.ScreenshotQuality = 0) :
    Validate p = report p checksWithoutQualityRules ∧
    checksWithoutQualityRules.map (fun c => c.rule) =
      [1, 2, 3, 4, 5, 6, 7, 8, 8, 8, 8, 8, 9, 9, 9, 11] ∧
    Validate { JSRender := true, Screenshot := true, ScreenshotFormat := "jpeg",
               ScreenshotQuality := 0 } = .ok () := by
  refine ⟨?_, by decide, by decide⟩
  rw [Validate_eq_firstViolation, firstViolation, checksWithoutQualityRules, report_filter]
  intro c hc hkeep
  simp only [specChecks, List.mem_cons, List.mem_singleton, List.not_mem_nil, or_false] at hc
  rcases hc with rfl | rfl | rfl | rfl | rfl | rfl | rfl | rfl | rfl | rfl | rfl | rfl | rfl |
    rfl | rfl | rfl | rfl | rfl
  all_goals first
    | exact absurd hkeep (by decide)
    | simp [h0]

/-- Witness for C16: quality zero with a png screenshot. -/
theorem Validate_zero_quality_is_unset_witness :
    Validate { JSRender := true, Screenshot := true, ScreenshotFormat := "png" } =
      report { JSRender := true, Screenshot := true, ScreenshotFormat := "png" }
        checksWithoutQualityRules :=
  (Validate_zero_quality_is_unset
    { JSRender := true, Screenshot := true, ScreenshotFormat := "png" } rfl).1

/-- C18: on a value that `Validate` accepts, any screenshot sub-option (full page, selector,
format, positive quality) implies that both `Screenshot` and `JSRender` are set, and a positive
quality further implies the jpeg format and a quality between 1 and 100. -/
theorem Validate_ok_dependency_closure (p : RequestParameters) (hv : Validate p = .ok ()) :
    ((p.ScreenshotFullPage = true ∨ p.ScreenshotSelector ≠ "" ∨ p.ScreenshotFormat ≠ "" ∨
        p.ScreenshotQuality > 0) → p.Screenshot = true ∧ p.JSRender = true) ∧
    (p.ScreenshotQuality > 0 →
      p.ScreenshotFormat = "jpeg" ∧ 1 ≤ p.ScreenshotQuality ∧ p.ScreenshotQuality ≤ 100) := by
  obtain ⟨hq, -, -, -, -, -, -, hJ, hS, hjpeg, -⟩ := (Validate_ok_iff p).mp hv
  constructor
  · intro h
    have hs : p.Screenshot = true := by
      cases hs : p.Screenshot
      · exfalso
        obtain ⟨h1, h2, h3, h4⟩ := hS hs
        rcases h with h | h | h | h
        · rw [h1] at h; exact Bool.noConfusion h
        · exact h h2
        · exact h h3
        · omega
      · rfl
    refine ⟨hs, ?_⟩
    cases hj : p.JSRender
    · rw [(hJ hj).1] at hs
      exact Bool.noConfusion hs
    · rfl
  · intro h
    exact ⟨hjpeg h, by omega, hq.2⟩

/-- Witness for C18: a full-page jpeg screenshot of quality 80. -/
theorem Validate_ok_dependency_closure_witness :
    ((true = true ∨ ("" : String) ≠ "" ∨ ("jpeg" : String) ≠ "" ∨ (80 : Int) > 0) →
      true = true ∧ true = true) ∧
    ((80 : Int) > 0 → ("jpeg" : String) = "jpeg" ∧ (1 : Int) ≤ 80 ∧ (80 : Int) ≤ 100) :=
  Validate_ok_dependency_closure
    { JSRender := true, Screenshot := true, ScreenshotFullPage := true,
      ScreenshotFormat := "jpeg", ScreenshotQuality := 80 } (by decide)

/-! ## Wire keys -/

/-- C15, refuted as stated: premium proxies are encoded under the key `premium_proxy`, which is
neither the identifier `use_premium_proxies` of the specification table nor any other
identifier of the table, nor the marker key. -/
theorem ToURLValues_key_not_in_spec_table :
    "premium_proxy" ∈ (ToURLValues { UsePremiumProxies := true }).keys ∧
    "premium_proxy" ∉ "custom_headers" :: specTableKeys ∧
    ¬ (∀ p : RequestParameters, ∀ k ∈ (ToURLValues p).keys,
        k ∈ "custom_headers" :: specTableKeys) := by
  refine ⟨by decide, by decide, ?_⟩
  intro h
  exact absurd (h { UsePremiumProxies := true } "premium_proxy" (by decide)) (by decide)

/-- C15, amended: every key of `ToURLValues p` is the name in the `structs` tag of the field
it encodes (`premium_proxy`, `proxy_country`, `autoparse`, `css_extractor`, `json_response`,
`response_type`, `outputs`, `js_render`, `js_instructions`, `wait`, `wait_for`, `screenshot`,
`screenshot_fullpage`, `screenshot_selector`, `screenshot_format`, `screenshot_quality`,
`original_status`, `session_id`, `allowed_status_codes`, `block_resources`), or the marker key
`custom_headers`. -/
theorem ToURLValues_keys_are_struct_tags (p : RequestParameters) (k : String)
    (hk : k ∈ (ToURLValues p).keys) :
    k ∈ ["premium_proxy", "proxy_country", "autoparse", "css_extractor", "json_response",
      "response_type", "outputs", "js_render", "js_instructions", "wait", "wait_for",
      "screenshot", "screenshot_fullpage", "screenshot_selector", "screenshot_format",
      "screenshot_quality", "original_status", "session_id", "allowed_status_codes",
      "block_resources", "custom_headers"] := by
  rw [ToURLValues_eq] at hk
  simp only [Values.keys, List.map_append, List.mem_append] at hk
  rcases hk with hk | hk
  · have h1 : k ∈ (structFields p).map Prod.fst := by
      apply (structsMap_keys_sublist p).subset
      rw [← fieldEntries_keys]
      exact hk
    rw [structFields_keys] at h1
    exact List.mem_append_left ["custom_headers"] h1
  · by_cases hh : p.CustomHeaders = []
    · simp [hh] at hk
    · simp only [hh, if_false, List.map_cons, List.map_nil, List.mem_singleton] at hk
      subst hk
      decide

/-- Witness for C15 (amended): the key of the premium proxy flag. -/
theorem ToURLValues_keys_are_struct_tags_witness :
    "premium_proxy" ∈ ["premium_proxy", "proxy_country", "autoparse", "css_extractor",
      "json_response", "response_type", "outputs", "js_render", "js_instructions", "wait",
      "wait_for", "screenshot", "screenshot_fullpage", "screenshot_selector",
      "screenshot_format", "screenshot_quality", "original_status", "session_id",
      "allowed_status_codes", "block_resources", "custom_headers"] :=
  ToURLValues_keys_are_struct_tags { UsePremiumProxies := true } "premium_proxy" (by decide)

/-! ## Properties of Client.Scrape -/

/-- C17: `Scrape` checks, in this order, the configuration, the method, the emptiness of the
target URL, its parsing, and the parameters; the first check that fails decides the error
returned, and no request is executed in any of these cases. A request that is executed
carries `ToURLValues p` only for parameters `p` on which `Validate` returned no error. -/
theorem Scrape_checks_in_order {β ρ : Type} (c : Client)
    (urlParse : String → Except String String) (execute : Request β → Except String ρ)
    (method targetURL : String) (params : Option RequestParameters) (body : β) :
    ((c.cfg.baseURL = "" ∨ c.cfg.apiKey = "") →
      c.Scrape urlParse execute method targetURL params body =
        ⟨.error .NotConfiguredError, []⟩) ∧
    (c.cfg.baseURL ≠ "" → c.cfg.apiKey ≠ "" → method ∉ ["GET", "POST", "PUT"] →
      c.Scrape urlParse execute method targetURL params body =
        ⟨.error .InvalidHTTPMethodError, []⟩) ∧
    (c.cfg.baseURL ≠ "" → c.cfg.apiKey ≠ "" → method ∈ ["GET", "POST", "PUT"] →
      targetURL = "" →
      c.Scrape urlParse execute method targetURL params body =
        ⟨.error (.InvalidTargetURLError ⟨"", "target url cannot be empty", none⟩), []⟩) ∧
    (c.cfg.baseURL ≠ "" → c.cfg.apiKey ≠ "" → method ∈ ["GET", "POST", "PUT"] →
      targetURL ≠ "" → ∀ parseErr, urlParse targetURL = .error parseErr →
      c.Scrape urlParse execute method targetURL params body =
        ⟨.error (.InvalidTargetURLError ⟨targetURL, "", some parseErr⟩), []⟩) ∧
    (c.cfg.baseURL ≠ "" → c.cfg.apiKey ≠ "" → method ∈ ["GET", "POST", "PUT"] →
      targetURL ≠ "" → ∀ parsedURL p err, urlParse targetURL = .ok parsedURL →
      params = some p → Validate p = .error err →
      c.Scrape urlParse execute method targetURL params body =
        ⟨.error (.InvalidParameterError err), []⟩) ∧
    (∀ req ∈ (c.Scrape urlParse execute method targetURL params body).executed,
      (params = none ∧ req.QueryParams = []) ∨
      (∃ p, params = some p ∧ Validate p = .ok () ∧ req.QueryParams = ToURLValues p)) ∧
    InvalidTargetURLError.Error ⟨"", "target url cannot be empty", none⟩ =
      "target url cannot be empty" := by
  refine ⟨?_, ?_, ?_, ?_, ?_, ?_, by decide⟩
  · intro h
    have hc : c.isConfigured = false := by
      rcases h with h | h <;> simp [Client.isConfigured, h]
    simp [Client.Scrape, hc]
  · intro hb ha hm
    have hc : c.isConfigured = true := by simp [Client.isConfigured, hb, ha]
    have hm2 : method ∉ validHTTPMethods := hm
    simp [Client.Scrape, hc, hm2]
  · intro hb ha hm ht
    have hc : c.isConfigured = true := by simp [Client.isConfigured, hb, ha]
    have hm2 : method ∈ validHTTPMethods := hm
    simp [Client.Scrape, hc, hm2, ht]
  · intro hb ha hm ht parseErr hp
    have hc : c.isConfigured = true := by simp [Client.isConfigured, hb, ha]
    have hm2 : method ∈ validHTTPMethods := hm
    simp [Client.Scrape, hc, hm2, ht, hp]
  · intro hb ha hm ht parsedURL p err hp hpar hv
    have hc : c.isConfigured = true := by simp [Client.isConfigured, hb, ha]
    have hm2 : method ∈ validHTTPMethods := hm
    simp [Client.Scrape, hc, hm2, ht, hp, hpar, hv]
  · intro req hreq
    by_cases hc : c.isConfigured = true
    · by_cases hm : method ∈ validHTTPMethods
      · by_cases ht : targetURL = ""
        · simp [Client.Scrape, hc, hm, ht] at hreq
        · cases hp : urlParse targetURL with
          | error e => simp [Client.Scrape, hc, hm, ht, hp] at hreq
          | ok u =>
            cases params with
            | none =>
              left
              refine ⟨rfl, ?_⟩
              cases he : execute ⟨method, u, body, [], []⟩ <;>
                simp [Client.Scrape, hc, hm, ht, hp, he] at hreq <;> rw [hreq]
            | some p =>
              right
              cases hv : Validate p with
              | error e => simp [Client.Scrape, hc, hm, ht, hp, hv] at hreq
              | ok u2 =>
                refine ⟨p, rfl, hv, ?_⟩
                cases he : execute ⟨method, u, body, p.CustomHeaders, ToURLValues p⟩ <;>
                  simp [Client.Scrape, hc, hm, ht, hp, hv, he] at hreq <;> rw [hreq]
      · simp [Client.Scrape, hc, hm] at hreq
    · simp [Client.Scrape, hc] at hreq

/-- Witness for C17: an unconfigured client with an invalid method, an empty target and
invalid parameters returns `NotConfiguredError` and executes nothing. -/
theorem Scrape_checks_in_order_witness :
    (@Client.Scrape Unit String ⟨⟨"https://api.zenrows.com/v1", ""⟩⟩
      (fun u => .ok u) (fun _ => .ok "response") "DELETE" ""
      (some { ScreenshotQuality := 101 }) ()) =
        ⟨.error .NotConfiguredError, []⟩ :=
  (Scrape_checks_in_order ⟨⟨"https://api.zenrows.com/v1", ""⟩⟩
    (fun u => .ok u) (fun _ => .ok "response") "DELETE" ""
    (some { ScreenshotQuality := 101 }) ()).1 (Or.inr rfl)

/-! ## Properties of the decoder -/

theorem digitVal_eq (c : Char) :
    digitVal c = if c ∈ decimalDigits then some (c.toNat - 48) else none := by
  by_cases h0 : c = '0'
  · subst h0; decide
  by_cases h1 : c = '1'
  · subst h1; decide
  by_cases h2 : c = '2'
  · subst h2; decide
  by_cases h3 : c = '3'
  · subst h3; decide
  by_cases h4 : c = '4'
  · subst h4; decide
  by_cases h5 : c = '5'
  · subst h5; decide
  by_cases h6 : c = '6'
  · subst h6; decide
  by_cases h7 : c = '7'
  · subst h7; decide
  by_cases h8 : c = '8'
  · subst h8; decide
  by_cases h9 : c = '9'
  · subst h9; decide
  have hn : c ∉ decimalDigits := by
    simp only [decimalDigits, List.mem_cons, List.not_mem_nil, or_false, not_or]
    exact ⟨h0, h1, h2, h3, h4, h5, h6, h7, h8, h9⟩
  rw [if_neg hn]
  unfold digitVal
  rw [if_neg h0, if_neg h1, if_neg h2, if_neg h3, if_neg h4, if_neg h5, if_neg h6, if_neg h7,
    if_neg h8, if_neg h9]

theorem parseDigits_eq (cs : List Char) :
    ∀ a : Nat, parseDigits cs a =
      if cs.all (fun c => decide (c ∈ decimalDigits)) = true
      then some (cs.foldl (fun n c => 10 * n + (c.toNat - 48)) a) else none := by
  induction cs with
  | nil => intro a; rfl
  | cons c cs ih =>
    intro a
    unfold parseDigits
    rw [digitVal_eq]
    by_cases hc : c ∈ decimalDigits
    · simp only [hc, if_true, ih, List.all_cons, decide_True, Bool.true_and, List.foldl_cons,
        Nat.mul_comm a 10]
    · simp [hc]

theorem parseUint_bind_isSome (cs : List Char) (bound : Nat) (f : Nat → Option Int)
    (hf : ∀ a, (f a).isSome = decide (a ≤ bound)) :
    ((parseUint cs).bind f).isSome =
      (!cs.isEmpty && cs.all (fun c => decide (c ∈ decimalDigits)) &&
        decide (cs.foldl (fun n c => 10 * n + (c.toNat - 48)) 0 ≤ bound)) := by
  unfold parseUint
  cases cs with
  | nil => rfl
  | cons x xs =>
    rw [if_neg (List.cons_ne_nil x xs), parseDigits_eq]
    by_cases hall : (x :: xs).all (fun c => decide (c ∈ decimalDigits)) = true
    · rw [if_pos hall, Option.some_bind, hf, hall]
      rfl
    · rw [if_neg hall]
      simp only [Bool.not_eq_true] at hall
      rw [hall]
      rfl

theorem parseInt_isSome (s : String) : (parseInt s).isSome = isIntText s := by
  have e : (2 : Nat) ^ 63 = 9223372036854775808 := by norm_num
  have hneg : ∀ a : Nat, (if a ≤ 2 ^ 63 then some (-(a : Int)) else none).isSome =
      decide (a ≤ 9223372036854775808) := by
    intro a
    rw [e]
    by_cases h : a ≤ 9223372036854775808 <;> simp [h]
  have hpos : ∀ a : Nat, (if a < 2 ^ 63 then some (a : Int) else none).isSome =
      decide (a ≤ 9223372036854775807) := by
    intro a
    rw [e]
    by_cases h : a ≤ 9223372036854775807
    · have h2 : a < 9223372036854775808 := by omega
      simp [h, h2]
    · have h2 : ¬ a < 9223372036854775808 := by omega
      simp [h, h2]
  unfold parseInt isIntText
  cases hs : s.data with
  | nil => rfl
  | cons c cs =>
    by_cases h1 : c = '-'
    · subst h1
      simp only [if_true, List.head?_cons, beq_self_eq_true, Bool.true_or, List.tail_cons]
      exact parseUint_bind_isSome cs _ _ hneg
    · by_cases h2 : c = '+'
      · subst h2
        have hm : (some '+' == some '-') = false := by decide
        simp only [h1, if_false, if_true, List.head?_cons, List.tail_cons, hm,
          beq_self_eq_true, Bool.false_or, Bool.false_eq_true]
        exact parseUint_bind_isSome cs _ _ hpos
      · have hm : (some c == some '-') = false := by simpa using h1
        have hp : (some c == some '+') = false := by simpa using h2
        simp only [h1, h2, if_false, List.head?_cons, hm, hp, Bool.or_self,
          Bool.false_eq_true]
        exact parseUint_bind_isSome (c :: cs) _ _ hpos

theorem convertBool_isSome (s : String) : (convertBool s).isSome = isBoolText s := by
  unfold convertBool parseBool isBoolText
  by_cases h0 : s = "on"
  · subst h0; rfl
  · by_cases h1 : s ∈ ["1", "t", "T", "TRUE", "true", "True"]
    · simp only [h0, if_false, h1, if_true, Option.isSome_some]
      symm
      rw [decide_eq_true_iff]
      simp only [List.mem_cons] at h1 ⊢
      tauto
    · by_cases h2 : s ∈ ["0", "f", "F", "FALSE", "false", "False"]
      · simp only [h0, if_false, h1, h2, if_true, Option.isSome_some]
        symm
        rw [decide_eq_true_iff]
        simp only [List.mem_cons] at h2 ⊢
        tauto
      · simp only [h0, if_false, h1, h2, Option.isSome_none]
        symm
        rw [decide_eq_false_iff_not]
        simp only [List.mem_cons, List.not_mem_nil, or_false] at h1 h2 ⊢
        tauto

theorem foldl_pieces_none (pieces : List String) :
    pieces.foldl
      (fun (acc : Option (List Int)) piece => acc.bind fun items =>
        if piece = "" then some items
        else (parseInt piece).map fun n => items ++ [n])
      none = none := by
  induction pieces with
  | nil => rfl
  | cons x xs ih => simpa using ih

theorem foldl_pieces_isSome (pieces : List String) :
    ∀ items : List Int,
      (pieces.foldl
        (fun (acc : Option (List Int)) piece => acc.bind fun items =>
          if piece = "" then some items
          else (parseInt piece).map fun n => items ++ [n])
        (some items)).isSome =
      pieces.all fun piece => decide (piece = "") || isIntText piece := by
  induction pieces with
  | nil => intro items; rfl
  | cons x xs ih =>
    intro items
    simp only [List.foldl_cons, Option.some_bind, List.all_cons]
    by_cases hx : x = ""
    · simp only [hx, if_true, ih, decide_True, Bool.true_or, Bool.true_and]
    · simp only [hx, if_false, decide_False, Bool.false_or]
      cases hp : parseInt x with
      | none => simp [← parseInt_isSome, hp, foldl_pieces_none]
      | some n => simp [← parseInt_isSome, hp, ih]

theorem convertIntItems_isSome (s : String) :
    (convertIntItems s).isSome = isIntListText s := by
  unfold convertIntItems isIntListText
  by_cases h0 : s = ""
  · simp [h0]
  · simp only [h0, if_false, decide_False, Bool.false_or]
    have hs : isIntText s = (parseInt s).isSome := (parseInt_isSome s).symm
    cases hp : parseInt s with
    | some n => simp [hs, hp]
    | none =>
      rw [hs, hp]
      simp only [Option.isSome_none, Bool.false_or]
      by_cases hc : ',' ∈ s.data
      · simp only [hc, if_true, decide_True, Bool.true_and]
        exact foldl_pieces_isSome _ []
      · simp [hc]

theorem foldl_intItems_none (values : List String) :
    values.foldl
      (fun (acc : Option (List Int)) value => acc.bind fun items =>
        (convertIntItems value).map fun more => items ++ more)
      none = none := by
  induction values with
  | nil => rfl
  | cons x xs ih => simpa using ih

theorem foldl_intItems_isSome (values : List String) :
    ∀ items : List Int,
      (values.foldl
        (fun (acc : Option (List Int)) value => acc.bind fun items =>
          (convertIntItems value).map fun more => items ++ more)
        (some items)).isSome = values.all isIntListText := by
  induction values with
  | nil => intro items; rfl
  | cons x xs ih =>
    intro items
    simp only [List.foldl_cons, Option.some_bind, List.all_cons, ← convertIntItems_isSome]
    cases hc : convertIntItems x with
    | none => simp [foldl_intItems_none]
    | some more => simp [ih, convertIntItems_isSome]

theorem convertIntSlice_isSome (values : List String) :
    (convertIntSlice values).isSome = values.all isIntListText :=
  foldl_intItems_isSome values []

theorem decodeBool_ok_iff (k : String) (vs : List String) (d : RequestParameters)
    (set : RequestParameters → Bool → RequestParameters) :
    (∃ d2, decodeBool k vs d set = .ok d2) ↔
      (decide (lastValue vs = "") || isBoolText (lastValue vs)) = true := by
  unfold decodeBool
  by_cases h0 : lastValue vs = ""
  · simp [h0]
  · rw [← convertBool_isSome]
    cases hc : convertBool (lastValue vs) <;> simp [h0, hc]

theorem decodeInt_ok_iff (k : String) (vs : List String) (d : RequestParameters)
    (set : RequestParameters → Int → RequestParameters) :
    (∃ d2, decodeInt k vs d set = .ok d2) ↔
      (decide (lastValue vs = "") || isIntText (lastValue vs)) = true := by
  rw [← parseInt_isSome]
  unfold decodeInt
  by_cases h0 : lastValue vs = ""
  · simp [h0]
  · cases hc : parseInt (lastValue vs) <;> simp [h0, hc]

theorem decodeString_ok (vs : List String) (d : RequestParameters)
    (set : RequestParameters → String → RequestParameters) :
    ∃ d2, decodeString vs d set = .ok d2 := by
  unfold decodeString
  split <;> exact ⟨_, rfl⟩

theorem decodeTagged_ok_iff_of_mem (d : RequestParameters) (tag k : String)
    (vs : List String) (ht : tag ∈ schemaKeys) :
    (∃ d2, decodeTagged d tag k vs = .ok d2) ↔ convertibleTag tag vs = true := by
  simp only [schemaKeys, List.mem_cons, List.not_mem_nil, or_false] at ht
  rcases ht with rfl | rfl | rfl | rfl | rfl | rfl | rfl | rfl | rfl | rfl | rfl | rfl | rfl |
    rfl | rfl | rfl | rfl | rfl | rfl | rfl
  · rw [show decodeTagged d "premium_proxy" k vs =
        decodeBool k vs d (fun d x => { d with UsePremiumProxies := x }) from rfl, decodeBool_ok_iff]
    rfl
  · rw [show decodeTagged d "proxy_country" k vs =
        decodeString vs d (fun d x => { d with ProxyCountry := x }) from rfl]
    exact iff_of_true (decodeString_ok _ _ _) rfl
  · rw [show decodeTagged d "autoparse" k vs =
        decodeBool k vs d (fun d x => { d with AutoParse := x }) from rfl, decodeBool_ok_iff]
    rfl
  · rw [show decodeTagged d "css_extractor" k vs =
        decodeString vs d (fun d x => { d with CSSExtractor := x }) from rfl]
    exact iff_of_true (decodeString_ok _ _ _) rfl
  · rw [show decodeTagged d "json_response" k vs =
        decodeBool k vs d (fun d x => { d with JSONResponse := x }) from rfl, decodeBool_ok_iff]
    rfl
  · rw [show decodeTagged d "response_type" k vs =
        decodeString vs d (fun d x => { d with ResponseType := x }) from rfl]
    exact iff_of_true (decodeString_ok _ _ _) rfl
  · rw [show decodeTagged d "outputs" k vs =
        .ok { d with Outputs := some (stringsSplitComma (lastValue vs)) } from rfl]
    exact iff_of_true ⟨_, rfl⟩ rfl
  · rw [show decodeTagged d "js_render" k vs =
        decodeBool k vs d (fun d x => { d with JSRender := x }) from rfl, decodeBool_ok_iff]
    rfl
  · rw [show decodeTagged d "js_instructions" k vs =
        decodeString vs d (fun d x => { d with JSInstructions := x }) from rfl]
    exact iff_of_true (decodeString_ok _ _ _) rfl
  · rw [show decodeTagged d "wait" k vs =
        decodeInt k vs d (fun d x => { d with WaitMilliseconds := x }) from rfl, decodeInt_ok_iff]
    rfl
  · rw [show decodeTagged d "wait_for" k vs =
        decodeString vs d (fun d x => { d with WaitForSelector := x }) from rfl]
    exact iff_of_true (decodeString_ok _ _ _) rfl
  · rw [show decodeTagged d "screenshot" k vs =
        decodeBool k vs d (fun d x => { d with Screenshot := x }) from rfl, decodeBool_ok_iff]
    rfl
  · rw [show decodeTagged d "screenshot_fullpage" k vs =
        decodeBool k vs d (fun d x => { d with ScreenshotFullPage := x }) from rfl, decodeBool_ok_iff]
    rfl
  · rw [show decodeTagged d "screenshot_selector" k vs =
        decodeString vs d (fun d x => { d with ScreenshotSelector := x }) from rfl]
    exact iff_of_true (decodeString_ok _ _ _) rfl
  · rw [show decodeTagged d "screenshot_format" k vs =
        decodeString vs d (fun d x => { d with ScreenshotFormat := x }) from rfl]
    exact iff_of_true (decodeString_ok _ _ _) rfl
  · rw [show decodeTagged d "screenshot_quality" k vs =
        decodeInt k vs d (fun d x => { d with ScreenshotQuality := x }) from rfl, decodeInt_ok_iff]
    rfl
  · rw [show decodeTagged d "original_status" k vs =
        decodeBool k vs d (fun d x => { d with ReturnOriginalStatus := x }) from rfl, decodeBool_ok_iff]
    rfl
  · rw [show decodeTagged d "session_id" k vs =
        decodeInt k vs d (fun d x => { d with SessionID := x }) from rfl, decodeInt_ok_iff]
    rfl
  · rw [show decodeTagged d "allowed_status_codes" k vs =
        (match convertIntSlice vs with
          | some items => .ok { d with AllowedStatusCodes := some items }
          | none => .error (.ConversionError k)) from rfl,
      show convertibleTag "allowed_status_codes" vs = vs.all isIntListText from rfl, ← convertIntSlice_isSome]
    cases convertIntSlice vs <;> simp
  · rw [show decodeTagged d "block_resources" k vs =
        .ok { d with BlockResources := some (stringsSplitComma (lastValue vs)) } from rfl]
    exact iff_of_true ⟨_, rfl⟩ rfl

theorem decodeTagged_unknown (d : RequestParameters) (tag k : String) (vs : List String)
    (h : tag ∉ schemaKeys) : decodeTagged d tag k vs = .error (.UnknownKeyError k) := by
  simp only [schemaKeys, List.mem_cons, List.not_mem_nil, or_false, not_or] at h
  obtain ⟨h1, h2, h3, h4, h5, h6, h7, h8, h9, h10, h11, h12, h13, h14, h15, h16, h17, h18,
    h19, h20⟩ := h
  unfold decodeTagged
  rw [if_neg h1, if_neg h2, if_neg h3, if_neg h4, if_neg h5, if_neg h6, if_neg h7, if_neg h8,
    if_neg h9, if_neg h10, if_neg h11, if_neg h12, if_neg h13, if_neg h14, if_neg h15,
    if_neg h16, if_neg h17, if_neg h18, if_neg h19, if_neg h20]

theorem convertible_eq (k : String) (vs : List String) :
    convertible k vs = convertibleTag (foldKey k) vs := rfl

theorem decodeField_unknown (d : RequestParameters) (k : String) (vs : List String)
    (h : foldKey k ∉ schemaKeys) : decodeField d k vs = .error (.UnknownKeyError k) :=
  decodeTagged_unknown d (foldKey k) k vs h

theorem decodeField_ok_iff (d : RequestParameters) (k : String) (vs : List String) :
    (∃ d2, decodeField d k vs = .ok d2) ↔
      (foldKey k ∈ schemaKeys ∧ convertible k vs = true) := by
  by_cases hk : foldKey k ∈ schemaKeys
  · rw [convertible_eq, ← decodeTagged_ok_iff_of_mem d (foldKey k) k vs hk]
    simp [hk, decodeField]
  · rw [decodeField_unknown d k vs hk]
    simp [hk]

theorem decodeBool_proj {α : Type} (g : RequestParameters → α) (k : String) (vs : List String)
    (d : RequestParameters) (set : RequestParameters → Bool → RequestParameters)
    (d2 : RequestParameters) (h : decodeBool k vs d set = .ok d2)
    (hset : ∀ d b, g (set d b) = g d) : g d2 = g d := by
  unfold decodeBool at h
  split at h
  · cases h; rfl
  · split at h
    · cases h; exact hset _ _
    · cases h

theorem decodeInt_proj {α : Type} (g : RequestParameters → α) (k : String) (vs : List String)
    (d : RequestParameters) (set : RequestParameters → Int → RequestParameters)
    (d2 : RequestParameters) (h : decodeInt k vs d set = .ok d2)
    (hset : ∀ d n, g (set d n) = g d) : g d2 = g d := by
  unfold decodeInt at h
  split at h
  · cases h; rfl
  · split at h
    · cases h; exact hset _ _
    · cases h

theorem decodeString_proj {α : Type} (g : RequestParameters → α) (vs : List String)
    (d : RequestParameters) (set : RequestParameters → String → RequestParameters)
    (d2 : RequestParameters) (h : decodeString vs d set = .ok d2)
    (hset : ∀ d s, g (set d s) = g d) : g d2 = g d := by
  unfold decodeString at h
  split at h
  · cases h; rfl
  · cases h; exact hset _ _

theorem decodeTagged_keeps_Outputs (d d2 : RequestParameters) (tag k : String)
    (vs : List String) (hk : tag ≠ "outputs") (h : decodeTagged d tag k vs = .ok d2) :
    d2.Outputs = d.Outputs := by
  by_cases ht : tag ∈ schemaKeys
  swap
  · rw [decodeTagged_unknown d tag k vs ht] at h
    cases h
  simp only [schemaKeys, List.mem_cons, List.not_mem_nil, or_false] at ht
  rcases ht with rfl | rfl | rfl | rfl | rfl | rfl | rfl | rfl | rfl | rfl | rfl | rfl | rfl |
    rfl | rfl | rfl | rfl | rfl | rfl | rfl
  · rw [show decodeTagged d "premium_proxy" k vs =
        decodeBool k vs d (fun d x => { d with UsePremiumProxies := x }) from rfl] at h
    exact decodeBool_proj (fun d => d.Outputs) _ _ _ _ _ h (fun _ _ => rfl)
  · rw [show decodeTagged d "proxy_country" k vs =
        decodeString vs d (fun d x => { d with ProxyCountry := x }) from rfl] at h
    exact decodeString_proj (fun d => d.Outputs) _ _ _ _ h (fun _ _ => rfl)
  · rw [show decodeTagged d "autoparse" k vs =
        decodeBool k vs d (fun d x => { d with AutoParse := x }) from rfl] at h
    exact decodeBool_proj (fun d => d.Outputs) _ _ _ _ _ h (fun _ _ => rfl)
  · rw [show decodeTagged d "css_extractor" k vs =
        decodeString vs d (fun d x => { d with CSSExtractor := x }) from rfl] at h
    exact decodeString_proj (fun d => d.Outputs) _ _ _ _ h (fun _ _ => rfl)
  · rw [show decodeTagged d "json_response" k vs =
        decodeBool k vs d (fun d x => { d with JSONResponse := x }) from rfl] at h
    exact decodeBool_proj (fun d => d.Outputs) _ _ _ _ _ h (fun _ _ => rfl)
  · rw [show decodeTagged d "response_type" k vs =
        decodeString vs d (fun d x => { d with ResponseType := x }) from rfl] at h
    exact decodeString_proj (fun d => d.Outputs) _ _ _ _ h (fun _ _ => rfl)
  · exact absurd rfl hk
  · rw [show decodeTagged d "js_render" k vs =
        decodeBool k vs d (fun d x => { d with JSRender := x }) from rfl] at h
    exact decodeBool_proj (fun d => d.Outputs) _ _ _ _ _ h (fun _ _ => rfl)
  · rw [show decodeTagged d "js_instructions" k vs =
        decodeString vs d (fun d x => { d with JSInstructions := x }) from rfl] at h
    exact decodeString_proj (fun d => d.Outputs) _ _ _ _ h (fun _ _ => rfl)
  · rw [show decodeTagged d "wait" k vs =
        decodeInt k vs d (fun d x => { d with WaitMilliseconds := x }) from rfl] at h
    exact decodeInt_proj (fun d => d.Outputs) _ _ _ _ _ h (fun _ _ => rfl)
  · rw [show decodeTagged d "wait_for" k vs =
        decodeString vs d (fun d x => { d with WaitForSelector := x }) from rfl] at h
    exact decodeString_proj (fun d => d.Outputs) _ _ _ _ h (fun _ _ => rfl)
  · rw [show decodeTagged d "screenshot" k vs =
        decodeBool k vs d (fun d x => { d with Screenshot := x }) from rfl] at h
    exact decodeBool_proj (fun d => d.Outputs) _ _ _ _ _ h (fun _ _ => rfl)
  · rw [show decodeTagged d "screenshot_fullpage" k vs =
        decodeBool k vs d (fun d x => { d with ScreenshotFullPage := x }) from rfl] at h
    exact decodeBool_proj (fun d => d.Outputs) _ _ _ _ _ h (fun _ _ => rfl)
  · rw [show decodeTagged d "screenshot_selector" k vs =
        decodeString vs d (fun d x => { d with ScreenshotSelector := x }) from rfl] at h
    exact decodeString_proj (fun d => d.Outputs) _ _ _ _ h (fun _ _ => rfl)
  · rw [show decodeTagged d "screenshot_format" k vs =
        decodeString vs d (fun d x => { d with ScreenshotFormat := x }) from rfl] at h
    exact decodeString_proj (fun d => d.Outputs) _ _ _ _ h (fun _ _ => rfl)
  · rw [show decodeTagged d "screenshot_quality" k vs =
        decodeInt k vs d (fun d x => { d with ScreenshotQuality := x }) from rfl] at h
    exact decodeInt_proj (fun d => d.Outputs) _ _ _ _ _ h (fun _ _ => rfl)
  · rw [show decodeTagged d "original_status" k vs =
        decodeBool k vs d (fun d x => { d with ReturnOriginalStatus := x }) from rfl] at h
    exact decodeBool_proj (fun d => d.Outputs) _ _ _ _ _ h (fun _ _ => rfl)
  · rw [show decodeTagged d "session_id" k vs =
        decodeInt k vs d (fun d x => { d with SessionID := x }) from rfl] at h
    exact decodeInt_proj (fun d => d.Outputs) _ _ _ _ _ h (fun _ _ => rfl)
  · rw [show decodeTagged d "allowed_status_codes" k vs =
        (match convertIntSlice vs with
          | some items => .ok { d with AllowedStatusCodes := some items }
          | none => .error (.ConversionError k)) from rfl] at h
    cases hc : convertIntSlice vs <;> rw [hc] at h <;> cases h
    rfl
  · rw [show decodeTagged d "block_resources" k vs =
        .ok { d with BlockResources := some (stringsSplitComma (lastValue vs)) } from rfl] at h
    cases h
    rfl

theorem decodeTagged_keeps_BlockResources (d d2 : RequestParameters) (tag k : String)
    (vs : List String) (hk : tag ≠ "block_resources") (h : decodeTagged d tag k vs = .ok d2) :
    d2.BlockResources = d.BlockResources := by
  by_cases ht : tag ∈ schemaKeys
  swap
  · rw [decodeTagged_unknown d tag k vs ht] at h
    cases h
  simp only [schemaKeys, List.mem_cons, List.not_mem_nil, or_false] at ht
  rcases ht with rfl | rfl | rfl | rfl | rfl | rfl | rfl | rfl | rfl | rfl | rfl | rfl | rfl |
    rfl | rfl | rfl | rfl | rfl | rfl | rfl
  · rw [show decodeTagged d "premium_proxy" k vs =
        decodeBool k vs d (fun d x => { d with UsePremiumProxies := x }) from rfl] at h
    exact decodeBool_proj (fun d => d.BlockResources) _ _ _ _ _ h (fun _ _ => rfl)
  · rw [show decodeTagged d "proxy_country" k vs =
        decodeString vs d (fun d x => { d with ProxyCountry := x }) from rfl] at h
    exact decodeString_proj (fun d => d.BlockResources) _ _ _ _ h (fun _ _ => rfl)
  · rw [show decodeTagged d "autoparse" k vs =
        decodeBool k vs d (fun d x => { d with AutoParse := x }) from rfl] at h
    exact decodeBool_proj (fun d => d.BlockResources) _ _ _ _ _ h (fun _ _ => rfl)
  · rw [show decodeTagged d "css_extractor" k vs =
        decodeString vs d (fun d x => { d with CSSExtractor := x }) from rfl] at h
    exact decodeString_proj (fun d => d.BlockResources) _ _ _ _ h (fun _ _ => rfl)
  · rw [show decodeTagged d "json_response" k vs =
        decodeBool k vs d (fun d x => { d with JSONResponse := x }) from rfl] at h
    exact decodeBool_proj (fun d => d.BlockResources) _ _ _ _ _ h (fun _ _ => rfl)
  · rw [show decodeTagged d "response_type" k vs =
        decodeString vs d (fun d x => { d with ResponseType := x }) from rfl] at h
    exact decodeString_proj (fun d => d.BlockResources) _ _ _ _ h (fun _ _ => rfl)
  · rw [show decodeTagged d "outputs" k vs =
        .ok { d with Outputs := some (stringsSplitComma (lastValue vs)) } from rfl] at h
    cases h
    rfl
  · rw [show decodeTagged d "js_render" k vs =
        decodeBool k vs d (fun d x => { d with JSRender := x }) from rfl] at h
    exact decodeBool_proj (fun d => d.BlockResources) _ _ _ _ _ h (fun _ _ => rfl)
  · rw [show decodeTagged d "js_instructions" k vs =
        decodeString vs d (fun d x => { d with JSInstructions := x }) from rfl] at h
    exact decodeString_proj (fun d => d.BlockResources) _ _ _ _ h (fun _ _ => rfl)
  · rw [show decodeTagged d "wait" k vs =
        decodeInt k vs d (fun d x => { d with WaitMilliseconds := x }) from rfl] at h
    exact decodeInt_proj (fun d => d.BlockResources) _ _ _ _ _ h (fun _ _ => rfl)
  · rw [show decodeTagged d "wait_for" k vs =
        decodeString vs d (fun d x => { d with WaitForSelector := x }) from rfl] at h
    exact decodeString_proj (fun d => d.BlockResources) _ _ _ _ h (fun _ _ => rfl)
  · rw [show decodeTagged d "screenshot" k vs =
        decodeBool k vs d (fun d x => { d with Screenshot := x }) from rfl] at h
    exact decodeBool_proj (fun d => d.BlockResources) _ _ _ _ _ h (fun _ _ => rfl)
  · rw [show decodeTagged d "screenshot_fullpage" k vs =
        decodeBool k vs d (fun d x => { d with ScreenshotFullPage := x }) from rfl] at h
    exact decodeBool_proj (fun d => d.BlockResources) _ _ _ _ _ h (fun _ _ => rfl)
  · rw [show decodeTagged d "screenshot_selector" k vs =
        decodeString vs d (fun d x => { d with ScreenshotSelector := x }) from rfl] at h
    exact decodeString_proj (fun d => d.BlockResources) _ _ _ _ h (fun _ _ => rfl)
  · rw [show decodeTagged d "screenshot_format" k vs =
        decodeString vs d (fun d x => { d with ScreenshotFormat := x }) from rfl] at h
    exact decodeString_proj (fun d => d.BlockResources) _ _ _ _ h (fun _ _ => rfl)
  · rw [show decodeTagged d "screenshot_quality" k vs =
        decodeInt k vs d (fun d x => { d with ScreenshotQuality := x }) from rfl] at h
    exact decodeInt_proj (fun d => d.BlockResources) _ _ _ _ _ h (fun _ _ => rfl)
  · rw [show decodeTagged d "original_status" k vs =
        decodeBool k vs d (fun d x => { d with ReturnOriginalStatus := x }) from rfl] at h
    exact decodeBool_proj (fun d => d.BlockResources) _ _ _ _ _ h (fun _ _ => rfl)
  · rw [show decodeTagged d "session_id" k vs =
        decodeInt k vs d (fun d x => { d with SessionID := x }) from rfl] at h
    exact decodeInt_proj (fun d => d.BlockResources) _ _ _ _ _ h (fun _ _ => rfl)
  · rw [show decodeTagged d "allowed_status_codes" k vs =
        (match convertIntSlice vs with
          | some items => .ok { d with AllowedStatusCodes := some items }
          | none => .error (.ConversionError k)) from rfl] at h
    cases hc : convertIntSlice vs <;> rw [hc] at h <;> cases h
    rfl
  · exact absurd rfl hk

theorem decodeStep_keeps_Outputs (st : RequestParameters × List DecodeError)
    (kv : String × List String) (hk : foldKey kv.1 ≠ "outputs") :
    (decodeStep st kv).1.Outputs = st.1.Outputs := by
  unfold decodeStep
  cases h : decodeField st.1 kv.1 kv.2 with
  | error e => rfl
  | ok d2 => exact decodeTagged_keeps_Outputs st.1 d2 (foldKey kv.1) kv.1 kv.2 hk h

theorem decodeStep_sets_Outputs (st : RequestParameters × List DecodeError)
    (kv : String × List String) (hk : foldKey kv.1 = "outputs") :
    (decodeStep st kv).1.Outputs = some (stringsSplitComma (lastValue kv.2)) := by
  unfold decodeStep decodeField
  rw [hk]
  rfl

theorem Decode_Outputs_of_entries (src : Values) (s : String)
    (hall : ∀ kv ∈ src, foldKey kv.1 = "outputs" → kv.2 = [s]) :
    ∀ st : RequestParameters × List DecodeError,
      (st.1.Outputs = some (stringsSplitComma s) ∨
        ∃ kv ∈ src, foldKey kv.1 = "outputs") →
      (src.foldl decodeStep st).1.Outputs = some (stringsSplitComma s) := by
  induction src with
  | nil =>
    intro st h
    rcases h with h | ⟨kv, hkv, -⟩
    · exact h
    · exact absurd hkv (List.not_mem_nil _)
  | cons kv src ih =>
    intro st h
    have ih2 := ih (fun x hx => hall x (List.mem_cons_of_mem kv hx))
    rw [List.foldl_cons]
    by_cases hk : foldKey kv.1 = "outputs"
    · apply ih2
      left
      rw [decodeStep_sets_Outputs st kv hk, hall kv (List.mem_cons_self kv src) hk]
      rfl
    · apply ih2
      rcases h with h | ⟨x, hx, hxk⟩
      · left
        rw [decodeStep_keeps_Outputs st kv hk]
        exact h
      · right
        rcases List.mem_cons.mp hx with e | hx
        · rw [e] at hxk
          exact absurd hxk hk
        · exact ⟨x, hx, hxk⟩

theorem decodeStep_keeps_BlockResources (st : RequestParameters × List DecodeError)
    (kv : String × List String) (hk : foldKey kv.1 ≠ "block_resources") :
    (decodeStep st kv).1.BlockResources = st.1.BlockResources := by
  unfold decodeStep
  cases h : decodeField st.1 kv.1 kv.2 with
  | error e => rfl
  | ok d2 => exact decodeTagged_keeps_BlockResources st.1 d2 (foldKey kv.1) kv.1 kv.2 hk h

theorem decodeStep_sets_BlockResources (st : RequestParameters × List DecodeError)
    (kv : String × List String) (hk : foldKey kv.1 = "block_resources") :
    (decodeStep st kv).1.BlockResources = some (stringsSplitComma (lastValue kv.2)) := by
  unfold decodeStep decodeField
  rw [hk]
  rfl

theorem Decode_BlockResources_of_entries (src : Values) (s : String)
    (hall : ∀ kv ∈ src, foldKey kv.1 = "block_resources" → kv.2 = [s]) :
    ∀ st : RequestParameters × List DecodeError,
      (st.1.BlockResources = some (stringsSplitComma s) ∨
        ∃ kv ∈ src, foldKey kv.1 = "block_resources") →
      (src.foldl decodeStep st).1.BlockResources = some (stringsSplitComma s) := by
  induction src with
  | nil =>
    intro st h
    rcases h with h | ⟨kv, hkv, -⟩
    · exact h
    · exact absurd hkv (List.not_mem_nil _)
  | cons kv src ih =>
    intro st h
    have ih2 := ih (fun x hx => hall x (List.mem_cons_of_mem kv hx))
    rw [List.foldl_cons]
    by_cases hk : foldKey kv.1 = "block_resources"
    · apply ih2
      left
      rw [decodeStep_sets_BlockResources st kv hk, hall kv (List.mem_cons_self kv src) hk]
      rfl
    · apply ih2
      rcases h with h | ⟨x, hx, hxk⟩
      · left
        rw [decodeStep_keeps_BlockResources st kv hk]
        exact h
      · right
        rcases List.mem_cons.mp hx with e | hx
        · rw [e] at hxk
          exact absurd hxk hk
        · exact ⟨x, hx, hxk⟩

theorem foldl_decodeStep_errs (src : Values) :
    ∀ st : RequestParameters × List DecodeError,
      (src.foldl decodeStep st).2 = [] ↔
        (st.2 = [] ∧
          ∀ kv ∈ src, foldKey kv.1 ∈ schemaKeys ∧ convertible kv.1 kv.2 = true) := by
  induction src with
  | nil => intro st; simp
  | cons kv src ih =>
    intro st
    rw [List.foldl_cons, ih]
    have hiff := decodeField_ok_iff st.1 kv.1 kv.2
    unfold decodeStep
    cases h : decodeField st.1 kv.1 kv.2 with
    | error e =>
      have hno : ¬ (foldKey kv.1 ∈ schemaKeys ∧ convertible kv.1 kv.2 = true) := by
        intro hc
        obtain ⟨d2, hd2⟩ := hiff.mpr hc
        rw [h] at hd2
        cases hd2
      constructor
      · intro hx
        exact absurd hx.1 (by simp)
      · intro hx
        exact absurd (hx.2 kv (List.mem_cons_self kv src)) hno
    | ok d2 =>
      have hyes : foldKey kv.1 ∈ schemaKeys ∧ convertible kv.1 kv.2 = true := hiff.mp ⟨d2, h⟩
      simp only [List.forall_mem_cons, hyes, true_and, and_self]

theorem ParseQuery_ok_iff (query : Values) :
    (∃ p, ParseQueryRequestParameters query = .ok p) ↔
      ∀ kv ∈ query, foldKey kv.1 ∈ schemaKeys ∧ convertible kv.1 kv.2 = true := by
  have h := foldl_decodeStep_errs query ({}, [])
  simp only [true_and] at h
  rw [← h, ← Decode_eq_foldl]
  unfold ParseQueryRequestParameters
  cases hd : Decode {} query with
  | mk rp errs =>
    cases errs with
    | nil => simp
    | cons e es => simp

theorem ParseQuery_ok_or_error (query : Values) :
    (∃ p, ParseQueryRequestParameters query = .ok p) ∨
      ∃ errs, errs ≠ [] ∧ ParseQueryRequestParameters query = .error errs := by
  unfold ParseQueryRequestParameters
  cases hd : Decode {} query with
  | mk rp errs =>
    cases errs with
    | nil => left; exact ⟨rp, rfl⟩
    | cons e es => right; exact ⟨e :: es, List.cons_ne_nil _ _, rfl⟩

theorem ParseQuery_ok_eq (query : Values) (p : RequestParameters)
    (h : ParseQueryRequestParameters query = .ok p) : p = (Decode {} query).1 := by
  unfold ParseQueryRequestParameters at h
  cases hd : Decode {} query with
  | mk rp errs =>
    rw [hd] at h
    cases errs with
    | nil => cases h; rfl
    | cons e es => cases h

theorem splitAux_ne_nil (sep : Char) (cs : List Char) :
    ∀ cur, splitAux sep cs cur ≠ [] := by
  induction cs with
  | nil => intro cur; simp [splitAux]
  | cons c cs ih =>
    intro cur
    unfold splitAux
    split
    · exact List.cons_ne_nil _ _
    · exact ih _

theorem splitAux_length (sep : Char) (cs : List Char) :
    ∀ cur, (splitAux sep cs cur).length = cs.count sep + 1 := by
  induction cs with
  | nil => intro cur; rfl
  | cons c cs ih =>
    intro cur
    unfold splitAux
    by_cases h : c = sep
    · subst h
      simp [ih]
    · have h2 : (c == sep) = false := by simpa using h
      simp only [h, if_false, ih, List.count_cons, h2, Bool.false_eq_true]

theorem intercalate_cons_of_ne_nil (sep x : List Char) (rest : List (List Char))
    (h : rest ≠ []) :
    List.intercalate sep (x :: rest) = x ++ sep ++ List.intercalate sep rest := by
  cases rest with
  | nil => exact absurd rfl h
  | cons y ys => simp [List.intercalate]

theorem splitAux_intercalate (sep : Char) (cs : List Char) :
    ∀ cur, List.intercalate [sep] (splitAux sep cs cur) = cur.reverse ++ cs := by
  induction cs with
  | nil => intro cur; simp [splitAux, List.intercalate]
  | cons c cs ih =>
    intro cur
    unfold splitAux
    by_cases h : c = sep
    · subst h
      simp only [if_true]
      rw [intercalate_cons_of_ne_nil _ _ _ (splitAux_ne_nil c cs []), ih]
      simp
    · simp only [h, if_false, ih]
      simp

theorem splitAux_no_sep (sep : Char) (cs : List Char) :
    ∀ cur, sep ∉ cur → ∀ piece ∈ splitAux sep cs cur, sep ∉ piece := by
  induction cs with
  | nil =>
    intro cur hcur piece hp
    simp only [splitAux, List.mem_singleton] at hp
    subst hp
    simpa using hcur
  | cons c cs ih =>
    intro cur hcur piece hp
    unfold splitAux at hp
    by_cases h : c = sep
    · simp only [h, if_true, List.mem_cons] at hp
      rcases hp with hp | hp
      · subst hp
        simpa using hcur
      · exact ih [] (List.not_mem_nil _) piece hp
    · simp only [h, if_false] at hp
      refine ih (c :: cur) ?_ piece hp
      intro hm
      rcases List.mem_cons.mp hm with e | e
      · exact h e.symm
      · exact hcur e

theorem stringsSplitComma_length (s : String) :
    (stringsSplitComma s).length = s.data.count ',' + 1 := by
  simp [stringsSplitComma, splitAux_length]

theorem stringsJoin_stringsSplitComma (s : String) :
    stringsJoin (stringsSplitComma s) "," = s := by
  unfold stringsJoin stringsSplitComma
  have h : List.map String.data (List.map String.mk (splitAux ',' s.data [])) =
      splitAux ',' s.data [] := by
    rw [List.map_map]
    exact List.map_id _
  rw [h]
  show String.mk (List.intercalate [','] (splitAux ',' s.data [])) = s
  rw [splitAux_intercalate]
  rfl

theorem stringsSplitComma_no_comma (s : String) :
    ∀ piece ∈ stringsSplitComma s, ',' ∉ piece.data := by
  intro piece hp
  obtain ⟨cs, hcs, rfl⟩ := List.mem_map.mp hp
  exact splitAux_no_sep ',' s.data [] (List.not_mem_nil _) cs hcs


/-- C13: `ParseQueryRequestParameters` returns an error, and so no value, for every map with a
key that names no field, and for every map in which the values given for a key cannot be
converted to the type of its field; for every map with only recognised keys and convertible
values it returns a value. A key is recognised when, ignoring case, it is one of the schema
tags, so `JS_RENDER=true` decodes and `Wait=abc` is a conversion error, not an unknown key.
The entries `wait=abc`, `js_render=maybe` and `allowed_status_codes=200,abc` are conversion
errors, an empty text is read as no value. -/
theorem ParseQuery_error_iff_unknown_or_unconvertible :
    (∀ query : Values, (∃ kv ∈ query, foldKey kv.1 ∉ schemaKeys) →
      ∃ errs, errs ≠ [] ∧ ParseQueryRequestParameters query = .error errs) ∧
    (∀ query : Values, (∃ kv ∈ query, convertible kv.1 kv.2 = false) →
      ∃ errs, errs ≠ [] ∧ ParseQueryRequestParameters query = .error errs) ∧
    (∀ query : Values,
      (∀ kv ∈ query, foldKey kv.1 ∈ schemaKeys ∧ convertible kv.1 kv.2 = true) →
      ∃ p, ParseQueryRequestParameters query = .ok p) ∧
    (∀ key ∈ schemaKeys, foldKey key = key) ∧
    (∀ value : String, convertible "js_render" [value] = false ↔
      value ∉ ["", "on", "1", "t", "T", "TRUE", "true", "True", "0", "f", "F", "FALSE",
        "false", "False"]) ∧
    (∀ value : String, convertible "wait" [value] = false ↔
      (value ≠ "" ∧ isIntText value = false)) ∧
    (∀ values : List String,
      convertible "allowed_status_codes" values = values.all isIntListText) ∧
    (isIntText "abc" = false ∧ isIntText "12x" = false ∧ isIntText "" = false ∧
      isIntText "-" = false ∧ isIntText "1.5" = false ∧ isIntText "1500" = true ∧
      isIntText "-12" = true ∧ isIntText "+7" = true ∧
      isIntText "9223372036854775807" = true ∧ isIntText "9223372036854775808" = false ∧
      isIntText "-9223372036854775808" = true ∧ isIntText "-9223372036854775809" = false) ∧
    ParseQueryRequestParameters [("bogus", ["1"])] = .error [.UnknownKeyError "bogus"] ∧
    ParseQueryRequestParameters [("wait", ["abc"])] = .error [.ConversionError "wait"] ∧
    ParseQueryRequestParameters [("js_render", ["maybe"])] =
      .error [.ConversionError "js_render"] ∧
    ParseQueryRequestParameters [("allowed_status_codes", ["200,abc"])] =
      .error [.ConversionError "allowed_status_codes"] ∧
    ParseQueryRequestParameters [("js_render", ["true"]), ("wait", ["abc"])] =
      .error [.ConversionError "wait"] ∧
    ParseQueryRequestParameters
        [("js_render", ["true"]), ("wait", ["1500"]), ("allowed_status_codes", ["404,500"])] =
      .ok { JSRender := true, WaitMilliseconds := 1500,
            AllowedStatusCodes := some [404, 500] } ∧
    ParseQueryRequestParameters [("JS_RENDER", ["true"])] = .ok { JSRender := true } ∧
    ParseQueryRequestParameters [("Wait", ["abc"])] = .error [.ConversionError "Wait"] ∧
    ParseQueryRequestParameters [("wait", [""])] = .ok {} := by
  have herr : ∀ query : Values,
      ¬ (∀ kv ∈ query, foldKey kv.1 ∈ schemaKeys ∧ convertible kv.1 kv.2 = true) →
      ∃ errs, errs ≠ [] ∧ ParseQueryRequestParameters query = .error errs := by
    intro query hno
    rcases ParseQuery_ok_or_error query with hok | herr
    · exact absurd ((ParseQuery_ok_iff query).mp hok) hno
    · exact herr
  refine ⟨?_, ?_, ?_, by decide, ?_, ?_, fun _ => rfl, by decide, by decide, by decide,
    by decide, by decide, by decide, by decide, by decide, by decide, by decide⟩
  · intro query ⟨kv, hkv, hk⟩
    exact herr query (fun hall => hk (hall kv hkv).1)
  · intro query ⟨kv, hkv, hc⟩
    refine herr query (fun hall => ?_)
    rw [(hall kv hkv).2] at hc
    exact Bool.noConfusion hc
  · intro query hall
    exact (ParseQuery_ok_iff query).mpr hall
  · intro value
    rw [show convertible "js_render" [value] =
      (decide (value = "") || isBoolText value) from rfl]
    simp only [isBoolText, Bool.or_eq_false_iff, decide_eq_false_iff_not, List.mem_cons,
      List.not_mem_nil, or_false, not_or]
  · intro value
    rw [show convertible "wait" [value] =
      (decide (value = "") || isIntText value) from rfl]
    simp only [Bool.or_eq_false_iff, decide_eq_false_iff_not, ne_eq]

/-- Witness for C13: a map with the unknown key `custom_headers`, a map with the
unconvertible entry `session_id=12x`, and a map whose keys are recognised ignoring case. -/
theorem ParseQuery_error_iff_unknown_or_unconvertible_witness :
    (∃ errs, errs ≠ [] ∧
      ParseQueryRequestParameters [("js_render", ["true"]), ("custom_headers", ["true"])] =
        .error errs) ∧
    (∃ errs, errs ≠ [] ∧
      ParseQueryRequestParameters [("session_id", ["12x"])] = .error errs) ∧
    (∃ p, ParseQueryRequestParameters [("Session_ID", ["12"]), ("outputs", ["a,b"])] =
      .ok p) :=
  ⟨ParseQuery_error_iff_unknown_or_unconvertible.1 _
      ⟨("custom_headers", ["true"]), by decide, by decide⟩,
    ParseQuery_error_iff_unknown_or_unconvertible.2.1 _
      ⟨("session_id", ["12x"]), by decide, by decide⟩,
    ParseQuery_error_iff_unknown_or_unconvertible.2.2.1 _ (by decide)⟩

/-- C14: the text `s` given under `outputs` (or `block_resources`) decodes to the pieces of
`s` between its commas, in order and without any membership check. Keys name a field
ignoring case, so the entry of the field is any entry whose key is `outputs` up to case: when
the map has such an entry and every such entry holds the text `s` (in particular when the map
has one entry for the field), the decoded slice is the split of `s`, whatever else the map
holds; a map with that single entry always decodes; the pieces are one more than the commas
of `s`, hold no comma, and joined by commas give `s` back. So `outputs=bogus` decodes to
`[bogus]`, which `Validate` rejects, and the empty text decodes to the one-element list
holding the empty token. With two entries for the field that differ in case the one decoded
last is kept. -/
theorem ParseQuery_enumeration_slices_split :
    (∀ (query : Values) (s : String) (p : RequestParameters),
      (∃ kv ∈ query, foldKey kv.1 = "outputs") →
      (∀ kv ∈ query, foldKey kv.1 = "outputs" → kv.2 = [s]) →
      ParseQueryRequestParameters query = .ok p →
      p.Outputs = some (stringsSplitComma s)) ∧
    (∀ (query : Values) (s : String) (p : RequestParameters),
      (∃ kv ∈ query, foldKey kv.1 = "block_resources") →
      (∀ kv ∈ query, foldKey kv.1 = "block_resources" → kv.2 = [s]) →
      ParseQueryRequestParameters query = .ok p →
      p.BlockResources = some (stringsSplitComma s)) ∧
    (∀ s : String, ParseQueryRequestParameters [("outputs", [s])] =
      .ok { Outputs := some (stringsSplitComma s) }) ∧
    (∀ s : String, ParseQueryRequestParameters [("block_resources", [s])] =
      .ok { BlockResources := some (stringsSplitComma s) }) ∧
    (∀ key s : String, foldKey key = "outputs" →
      ParseQueryRequestParameters [(key, [s])] =
        .ok { Outputs := some (stringsSplitComma s) }) ∧
    (∀ key s : String, foldKey key = "block_resources" →
      ParseQueryRequestParameters [(key, [s])] =
        .ok { BlockResources := some (stringsSplitComma s) }) ∧
    (∀ s : String, (stringsSplitComma s).length = s.data.count ',' + 1) ∧
    (∀ s : String, stringsJoin (stringsSplitComma s) "," = s ∧
      ∀ piece ∈ stringsSplitComma s, ',' ∉ piece.data) ∧
    ParseQueryRequestParameters [("outputs", ["bogus"])] = .ok { Outputs := some ["bogus"] } ∧
    Validate { Outputs := some ["bogus"] } = .error ⟨"invalid output type"⟩ ∧
    ParseQueryRequestParameters [("outputs", [""])] = .ok { Outputs := some [""] } ∧
    ParseQueryRequestParameters [("block_resources", ["image,,font"])] =
      .ok { BlockResources := some ["image", "", "font"] } ∧
    ParseQueryRequestParameters [("outputs", ["a"]), ("OUTPUTS", ["b"])] =
      .ok { Outputs := some ["b"] } := by
  have hone : ∀ (key : String) (vs : List String) (d : RequestParameters),
      decodeField {} key vs = .ok d → ParseQueryRequestParameters [(key, vs)] = .ok d := by
    intro key vs d h
    unfold ParseQueryRequestParameters Decode
    rw [List.foldl_cons, List.foldl_nil]
    dsimp only
    rw [h]
  refine ⟨?_, ?_, fun _ => rfl, fun _ => rfl, ?_, ?_, stringsSplitComma_length,
    fun s => ⟨stringsJoin_stringsSplitComma s, stringsSplitComma_no_comma s⟩,
    by decide, by decide, by decide, by decide, by decide⟩
  · intro query s p hex hall hok
    rw [ParseQuery_ok_eq query p hok, Decode_eq_foldl]
    exact Decode_Outputs_of_entries query s hall _ (Or.inr hex)
  · intro query s p hex hall hok
    rw [ParseQuery_ok_eq query p hok, Decode_eq_foldl]
    exact Decode_BlockResources_of_entries query s hall _ (Or.inr hex)
  · intro key s hk
    apply hone
    unfold decodeField
    rw [hk]
    rfl
  · intro key s hk
    apply hone
    unfold decodeField
    rw [hk]
    rfl

/-- Witness for C14: a map with `Outputs=emails,bogus`, the key written with a capital, next
to another entry. -/
theorem ParseQuery_enumeration_slices_split_witness :
    (RequestParameters.Outputs
      { JSRender := true, Outputs := some ["emails", "bogus"] }) =
      some (stringsSplitComma "emails,bogus") :=
  ParseQuery_enumeration_slices_split.1
    [("js_render", ["true"]), ("Outputs", ["emails,bogus"])] "emails,bogus"
    { JSRender := true, Outputs := some ["emails", "bogus"] }
    ⟨("Outputs", ["emails,bogus"]), by decide, by decide⟩ (by decide) (by decide)

end ScraperAPI
